import Mathlib

/-!
Verification of the SQL tool layer in `tools.py`: the three tool
operations `execute_sql`, `get_schema`, `save_data_to_csv` and the
internal global-CSV autosave, together with the textual literal
serialization (`str` of a list of tuples) and its inverse
(`ast.literal_eval`) that the tools use at their boundaries.

The embedding works over a model of the Python values that flow through
these functions.  CPython floats are modelled by their `repr` token
(CPython guarantees `float(repr(x)) == x` and `repr` is injective on
floats, so the token determines the value); a well-formedness predicate
describes the shape of tokens `repr` can emit (a finite-float literal,
or `inf`/`-inf`/`nan`).  All definitions are executable and fuel-based
recursion is used so that concrete instances evaluate in the kernel.
-/

set_option maxHeartbeats 4000000
set_option maxRecDepth 20000

namespace SQLTools

/-- Single-quote character, written by code point. -/
def squote : Char := Char.ofNat 39

/-- Double-quote character. -/
def dquote : Char := '"'

/-- Backslash character. -/
def bslash : Char := '\\'

/-- Characters removed by Python `str.strip()` (ASCII whitespace set). -/
def isPyStripWs (c : Char) : Bool :=
  c = ' ' || c = '\t' || c = '\n' || c = '\r' || c = '\x0b' || c = '\x0c'

/-- Python `str.strip()` on a character list: drop leading and trailing
whitespace. -/
def pyStrip (cs : List Char) : List Char :=
  ((cs.dropWhile isPyStripWs).reverse.dropWhile isPyStripWs).reverse

/-- Python `str.upper()` (ASCII model). -/
def pyUpper (cs : List Char) : List Char := cs.map Char.toUpper

/-- Python `str.lower()` (ASCII model). -/
def pyLower (cs : List Char) : List Char := cs.map Char.toLower

/-- ASCII decimal digit test. -/
def isDigitC (c : Char) : Bool := '0' ≤ c && c ≤ '9'

/-- Identifier-character test (letters, digits, underscore), used by the
literal parser to scan bare names such as `None`, `True`, `inf`. -/
def isIdentC (c : Char) : Bool :=
  ('a' ≤ c && c ≤ 'z') || ('A' ≤ c && c ≤ 'Z') || isDigitC c || c = '_'

/-- Decimal digit character for `n < 10`. -/
def digitCh (n : Nat) : Char := Char.ofNat (48 + n)

/-- Lowercase hexadecimal digit character for `n < 16`. -/
def hexCh (n : Nat) : Char := Char.ofNat (if n < 10 then 48 + n else 87 + n)

/-- Value of a hexadecimal digit character, if it is one. -/
def hexVal? (c : Char) : Option Nat :=
  if '0' ≤ c && c ≤ '9' then some (c.toNat - 48)
  else if 'a' ≤ c && c ≤ 'f' then some (c.toNat - 87)
  else if 'A' ≤ c && c ≤ 'F' then some (c.toNat - 55)
  else none

/-- Decimal rendering of a natural number, most significant digit first
(fuel-based so it evaluates in the kernel). -/
def natReprAux : Nat → Nat → List Char
  | 0, _ => []
  | f + 1, n => if n < 10 then [digitCh n] else natReprAux f (n / 10) ++ [digitCh (n % 10)]

/-- Decimal rendering of a natural number, model of Python `repr` on a
non-negative int. -/
def natRepr (n : Nat) : List Char := natReprAux (n + 1) n

/-- Numeric value of a list of decimal digit characters. -/
def digitsVal (ds : List Char) : Nat :=
  ds.foldl (fun a c => a * 10 + (c.toNat - 48)) 0

/-- Scalar values at the tool boundary: the types the serialization
round-trip supports (spec 4.3).  A float is carried as its CPython
`repr` token. -/
inductive PyVal where
  | int (n : Int)
  | float (tok : String)
  | str (s : String)
  | bool (b : Bool)
  | none
deriving DecidableEq, Repr

/-- Python objects produced by the literal parser: scalars, lists and
tuples (the shapes `str(rows)` emits and `ast.literal_eval` returns on
this grammar). -/
inductive PyObj where
  | v (val : PyVal)
  | list (xs : List PyObj)
  | tuple (xs : List PyObj)

/-- Python `repr` of a string: quote choice (single quote unless the
string contains one and no double quote) plus per-character escaping. -/
def strReprQuote (s : List Char) : Char :=
  if s.contains squote && !s.contains dquote then dquote else squote

/-- Escape one character for Python string `repr` under quote `q`:
backslash and the quote are escaped, tab/newline/return use named
escapes, other control characters use `\xhh`, everything else is
emitted raw. -/
def escChar (q c : Char) : List Char :=
  if c = bslash then [bslash, bslash]
  else if c = q then [bslash, q]
  else if c = '\t' then [bslash, 't']
  else if c = '\n' then [bslash, 'n']
  else if c = '\r' then [bslash, 'r']
  else if c.toNat < 32 || c.toNat = 127 then
    [bslash, 'x', hexCh (c.toNat / 16), hexCh (c.toNat % 16)]
  else [c]

/-- Body of a Python string `repr` under quote `q`. -/
def escBody (q : Char) : List Char → List Char
  | [] => []
  | c :: cs => escChar q c ++ escBody q cs

/-- Python `repr` of a string. -/
def strRepr (s : String) : List Char :=
  let q := strReprQuote s.data
  q :: escBody q s.data ++ [q]

/-- Python `repr` of an int. -/
def intRepr (n : Int) : List Char :=
  if n < 0 then '-' :: natRepr n.natAbs else natRepr n.toNat

/-- Python `repr` of a boundary scalar value. -/
def valRepr : PyVal → List Char
  | .int n => intRepr n
  | .float tok => tok.data
  | .str s => strRepr s
  | .bool b => if b then "True".data else "False".data
  | .none => "None".data

mutual
/-- Python `repr` of an object on this grammar (`str` of a list of
tuples delegates to `repr` of the elements). -/
def objRepr : PyObj → List Char
  | .v val => valRepr val
  | .list xs => '[' :: seqBody xs ++ [']']
  | .tuple [] => ['(', ')']
  | .tuple (x :: xs) => '(' :: objRepr x ++ ',' :: tupTail xs

/-- Comma-space separated element renderings, as in Python repr of a
list body. -/
def seqBody : List PyObj → List Char
  | [] => []
  | [x] => objRepr x
  | x :: y :: xs => objRepr x ++ ',' :: ' ' :: seqBody (y :: xs)

/-- Rendering of tuple elements after the first element and its comma:
a lone trailing `)` reproduces the singleton form `(x,)`, otherwise
` y, z)` as in `", ".join`. -/
def tupTail : List PyObj → List Char
  | [] => [')']
  | y :: ys => ' ' :: objRepr y ++ (match ys with
      | [] => [')']
      | _ => ',' :: tupTail ys)
end

/-- A database row as fetched by `cursor.fetchall()`: a tuple of scalar
values. -/
abbrev Row := List PyVal

/-- A RowSet: the list of rows `fetchall` returns. -/
abbrev RowSet := List Row

/-- The PyObj denoted by a RowSet: a list of tuples of scalars. -/
def rowSetObj (rs : RowSet) : PyObj :=
  .list (rs.map fun r => .tuple (r.map .v))

/-- The serialization `execute_sql` applies to fetched rows:
`str(rows)` where `rows` is the list of tuples from `fetchall`
(tools.py line 62). -/
def serializeRowSet (rs : RowSet) : String :=
  ⟨objRepr (rowSetObj rs)⟩

/-- Drop the inline whitespace the literal parser skips between tokens
(the separators `repr` emits are single spaces). -/
def skipWs (cs : List Char) : List Char :=
  cs.dropWhile fun c => c = ' ' || c = '\t'

/-- Unescape one named escape character inside a string literal. -/
def unescChar? (e : Char) : Option Char :=
  if e = bslash then some bslash
  else if e = squote then some squote
  else if e = dquote then some dquote
  else if e = 'n' then some '\n'
  else if e = 't' then some '\t'
  else if e = 'r' then some '\r'
  else Option.none

/-- Parse the body of a string literal opened with quote `q`, returning
the decoded characters and the input after the closing quote.  Accepts
the escapes Python string `repr` emits (backslash, either quote,
`\n` `\t` `\r`, and `\xhh`); anything else after a backslash fails. -/
def parseStrBody (q : Char) : List Char → Option (List Char × List Char)
  | [] => Option.none
  | c :: cs =>
    if c = q then some ([], cs)
    else if c = bslash then
      match cs with
      | [] => Option.none
      | e :: cs1 =>
        if e = 'x' then
          match cs1 with
          | h1 :: h2 :: cs2 =>
            match hexVal? h1, hexVal? h2 with
            | some v1, some v2 =>
              (parseStrBody q cs2).map fun r => (Char.ofNat (16 * v1 + v2) :: r.1, r.2)
            | _, _ => Option.none
          | _ => Option.none
        else
          match unescChar? e with
          | some c1 => (parseStrBody q cs1).map fun r => (c1 :: r.1, r.2)
          | Option.none => Option.none
    else (parseStrBody q cs).map fun r => (c :: r.1, r.2)

/-- Python 3 rejects an int literal with a leading zero unless every
digit is zero. -/
def intTokOK (ds : List Char) : Bool :=
  match ds with
  | c :: rest => if c = '0' then rest.all fun x => x = '0' else true
  | [] => true

/-- Parse the exponent part of a float token: `e` (either case), an
optional sign and at least one digit.  Returns the consumed characters
and the rest. -/
def parseExp (cs : List Char) : Option (List Char × List Char) :=
  match cs with
  | [] => Option.none
  | e :: r =>
    if e = 'e' || e = 'E' then
      match r with
      | [] => Option.none
      | c :: t =>
        if c = '+' || c = '-' then
          if (t.takeWhile isDigitC).isEmpty then Option.none
          else some (e :: c :: t.takeWhile isDigitC, t.dropWhile isDigitC)
        else
          if (r.takeWhile isDigitC).isEmpty then Option.none
          else some (e :: r.takeWhile isDigitC, r.dropWhile isDigitC)
    else Option.none

/-- Outcome of the integer branch of the number parser. -/
def intResult (d1 r1 : List Char) : Option (PyObj × List Char) :=
  if intTokOK d1 then some (.v (.int (Int.ofNat (digitsVal d1))), r1)
  else Option.none

/-- Parse a number token starting with a digit: an int (decimal digits,
no leading zero unless all zero) or a float (with a fractional part, an
exponent, or both).  A float is returned as its token text. -/
def parseNumber (cs : List Char) : Option (PyObj × List Char) :=
  if (cs.takeWhile isDigitC).isEmpty then Option.none
  else
    match cs.dropWhile isDigitC with
    | [] => intResult (cs.takeWhile isDigitC) []
    | c :: r2 =>
      if c = '.' then
        if (r2.takeWhile isDigitC).isEmpty then Option.none
        else
          match parseExp (r2.dropWhile isDigitC) with
          | some (ex, r4) =>
            some (.v (.float ⟨cs.takeWhile isDigitC ++ '.' :: r2.takeWhile isDigitC ++ ex⟩), r4)
          | Option.none =>
            some (.v (.float ⟨cs.takeWhile isDigitC ++ '.' :: r2.takeWhile isDigitC⟩),
              r2.dropWhile isDigitC)
      else if c = 'e' || c = 'E' then
        match parseExp (c :: r2) with
        | some (ex, r4) => some (.v (.float ⟨cs.takeWhile isDigitC ++ ex⟩), r4)
        | Option.none => Option.none
      else intResult (cs.takeWhile isDigitC) (c :: r2)

/-- Exponent shape CPython float `repr` emits: lowercase `e`, an
explicit sign, then digits only, to the end of the token. -/
def expTokEmit (cs : List Char) : Bool :=
  match cs with
  | e :: c :: t => e = 'e' && (c = '+' || c = '-') && !t.isEmpty && t.all isDigitC
  | _ => false

/-- Shape of an unsigned finite-float `repr` token: digits, then a
fractional part and/or an exponent. -/
def finFloatTokCore (s : List Char) : Bool :=
  !(s.takeWhile isDigitC).isEmpty &&
    (match s.dropWhile isDigitC with
     | [] => false
     | c :: r2 =>
       if c = '.' then
         !(r2.takeWhile isDigitC).isEmpty &&
           ((r2.dropWhile isDigitC).isEmpty || expTokEmit (r2.dropWhile isDigitC))
       else expTokEmit (c :: r2))

/-- A finite-float `repr` token, possibly negative. -/
def floatTokFinite (s : String) : Bool :=
  match s.data with
  | [] => false
  | c :: t => if c = '-' then finFloatTokCore t else finFloatTokCore (c :: t)

/-- Every token CPython float `repr` can emit: a finite token or one of
the non-finite names. -/
def floatTokWF (s : String) : Bool :=
  s = "inf" || s = "-inf" || s = "nan" || floatTokFinite s

/-- Scalars whose token round-trips (the amended supported set: all
scalars, with floats restricted to finite ones). -/
def pyValFin : PyVal → Bool
  | .float tok => floatTokFinite tok
  | _ => true

/-- Scalars of the supported types as the claim states them (floats
are any value `repr` can emit, non-finite ones included). -/
def pyValOK : PyVal → Bool
  | .float tok => floatTokWF tok
  | _ => true

/-- A RowSet of claim-supported scalars. -/
def rowSetOK (rs : RowSet) : Bool := rs.all fun r => r.all pyValOK

/-- A RowSet of round-tripping scalars (finite floats). -/
def rowSetFin (rs : RowSet) : Bool := rs.all fun r => r.all pyValFin

/-- Parse a bare name: only the keyword constants `ast.literal_eval`
accepts (`None`, `True`, `False`); any other name — including `inf` and
`nan` — is rejected. -/
def parseKeyword (cs : List Char) : Option (PyObj × List Char) :=
  if cs.takeWhile isIdentC = "None".data then some (.v .none, cs.dropWhile isIdentC)
  else if cs.takeWhile isIdentC = "True".data then
    some (.v (.bool true), cs.dropWhile isIdentC)
  else if cs.takeWhile isIdentC = "False".data then
    some (.v (.bool false), cs.dropWhile isIdentC)
  else Option.none

/-- Python unary minus on a parsed constant, as `literal_eval` applies
it: negates ints and floats (a float token gains a sign), maps booleans
through their int value, fails on anything else. -/
def pyNeg : PyObj → Option PyObj
  | .v (.int n) => some (.v (.int (-n)))
  | .v (.float tok) => some (.v (.float ⟨'-' :: tok.data⟩))
  | .v (.bool b) => some (.v (.int (if b then -1 else 0)))
  | _ => Option.none

mutual
/-- Fuel-based recursive-descent parser for the literal grammar
`ast.literal_eval` evaluates on serialized RowSets: lists, tuples
(including the parenthesized-expression and singleton `(x,)` forms),
strings, numbers with unary minus, and the keyword constants. -/
def parseObj : Nat → List Char → Option (PyObj × List Char)
  | 0, _ => Option.none
  | f + 1, cs =>
    match skipWs cs with
    | [] => Option.none
    | c :: r =>
      if c = '[' then (parseElems f r).map fun p => (.list p.1, p.2)
      else if c = '(' then parseParen f r
      else if c = '-' then
        match parseObj f r with
        | some (o, r1) => (pyNeg o).map fun o1 => (o1, r1)
        | Option.none => Option.none
      else if c = squote || c = dquote then
        (parseStrBody c r).map fun p => (.v (.str ⟨p.1⟩), p.2)
      else if isDigitC c then parseNumber (c :: r)
      else if isIdentC c then parseKeyword (c :: r)
      else Option.none

/-- Parse comma-separated list elements up to the closing `]`. -/
def parseElems : Nat → List Char → Option (List PyObj × List Char)
  | 0, _ => Option.none
  | f + 1, cs =>
    match skipWs cs with
    | [] => Option.none
    | c :: r =>
      if c = ']' then some ([], r)
      else
        match parseObj f (c :: r) with
        | some (o, r1) =>
          (match skipWs r1 with
           | [] => Option.none
           | c2 :: r2 =>
             if c2 = ',' then (parseElems f r2).map fun p => (o :: p.1, p.2)
             else if c2 = ']' then some ([o], r2)
             else Option.none)
        | Option.none => Option.none

/-- Parse what follows `(`: the empty tuple, a parenthesized
expression, or a tuple of two or more elements / a singleton with a
trailing comma. -/
def parseParen : Nat → List Char → Option (PyObj × List Char)
  | 0, _ => Option.none
  | f + 1, cs =>
    match skipWs cs with
    | [] => Option.none
    | c :: r =>
      if c = ')' then some (.tuple [], r)
      else
        match parseObj f (c :: r) with
        | some (o, r1) =>
          (match skipWs r1 with
           | [] => Option.none
           | c2 :: r2 =>
             if c2 = ')' then some (o, r2)
             else if c2 = ',' then (parseTupElems f r2).map fun p => (.tuple (o :: p.1), p.2)
             else Option.none)
        | Option.none => Option.none

/-- Parse the tuple elements after a comma, up to the closing `)`
(a `)` right away is the trailing-comma form). -/
def parseTupElems : Nat → List Char → Option (List PyObj × List Char)
  | 0, _ => Option.none
  | f + 1, cs =>
    match skipWs cs with
    | [] => Option.none
    | c :: r =>
      if c = ')' then some ([], r)
      else
        match parseObj f (c :: r) with
        | some (o, r1) =>
          (match skipWs r1 with
           | [] => Option.none
           | c2 :: r2 =>
             if c2 = ',' then (parseTupElems f r2).map fun p => (o :: p.1, p.2)
             else if c2 = ')' then some ([o], r2)
             else Option.none)
        | Option.none => Option.none
end

/-- Model of `ast.literal_eval` restricted to this grammar: parse one
object and require only trailing whitespace after it.  The fuel bound
`2 * length + 32` dominates the parser's call depth on any input it can
accept (each recursive call consumes at least one character or pairs
with one that does). -/
def parseAll (s : String) : Option PyObj :=
  match parseObj (2 * s.length + 32) s.data with
  | some (o, r) => if skipWs r = [] then some o else Option.none
  | Option.none => Option.none

/-- A float token denotes `0.0` iff every mantissa digit is zero
(exponent digits do not affect zeroness). -/
def floatTokZero (tok : String) : Bool :=
  ((tok.data.takeWhile fun c => c ≠ 'e' && c ≠ 'E').filter isDigitC).all fun c => c = '0'

/-- Python truthiness of a parsed object (`not data` in the source). -/
def pyTruthy : PyObj → Bool
  | .v (.int n) => n != 0
  | .v (.float tok) => !floatTokZero tok
  | .v (.str s) => !s.isEmpty
  | .v (.bool b) => b
  | .v .none => false
  | .list xs => !xs.isEmpty
  | .tuple xs => !xs.isEmpty

/-- Python `type(x).__name__` for the modelled objects. -/
def pyTypeName : PyObj → String
  | .v (.int _) => "int"
  | .v (.float _) => "float"
  | .v (.str _) => "str"
  | .v (.bool _) => "bool"
  | .v .none => "NoneType"
  | .list _ => "list"
  | .tuple _ => "tuple"

/-- Python `str()` of an object, as the csv module applies to
non-string fields (strings pass through unquoted, containers and other
scalars render via `repr`). -/
def strOfObj : PyObj → String
  | .v (.str s) => s
  | o => ⟨objRepr o⟩

/-- csv QUOTE_MINIMAL: a field is quoted iff it contains the delimiter,
the quote character, or a line-terminator character. -/
def csvNeedsQuote (s : String) : Bool :=
  s.data.any fun c => c = ',' || c = dquote || c = '\r' || c = '\n'

/-- Quote a csv field when needed, doubling embedded quote characters. -/
def csvQuote (s : String) : String :=
  if csvNeedsQuote s then
    ⟨dquote :: s.data.foldr (fun c acc => if c = dquote then dquote :: dquote :: acc else c :: acc) [dquote]⟩
  else s

/-- One csv field from an object: `None` becomes the empty field, other
values convert via `str()` and minimal quoting. -/
def csvField : PyObj → String
  | .v .none => ""
  | o => csvQuote (strOfObj o)

/-- The csv writer's line terminator. -/
def crlf : String := "\r\n"

/-- One csv record from already-stringified fields. -/
def csvRow (fields : List String) : String :=
  String.intercalate "," fields ++ crlf

/-- `writer.writerow(row)` iterates its argument: lists and tuples
yield their elements, a string yields its characters (each becoming a
field), scalars are not iterable and raise TypeError. -/
def rowFieldObjs : PyObj → Option (List PyObj)
  | .list xs => some xs
  | .tuple xs => some xs
  | .v (.str s) => some (s.data.map fun c => .v (.str ⟨[c]⟩))
  | _ => Option.none

/-- `writer.writerows(data)` on arbitrary parsed data: renders rows in
order and stops at the first non-iterable row (whose TypeError the
autosave's blanket handler swallows after the buffer is flushed). -/
def renderRows : List PyObj → String
  | [] => ""
  | r :: rs =>
    match rowFieldObjs r with
    | some fields => csvRow (fields.map csvField) ++ renderRows rs
    | Option.none => ""

/-- `writer.writerows(rows)` on the normalized rows `save_data_to_csv`
builds (every row already a field list). -/
def renderNormRows : List (List PyObj) → String
  | [] => ""
  | r :: rs => csvRow (r.map csvField) ++ renderNormRows rs

/-- Row normalization in `save_data_to_csv` (tools.py line 124):
sequence rows pass through as their elements, any other value — a
string included — becomes a single-element row. -/
def normalizeRow : PyObj → List PyObj
  | .list xs => xs
  | .tuple xs => xs
  | o => [o]

/-- `query.strip().upper().startswith('SELECT')` (tools.py line 15). -/
def startsSelect (q : String) : Bool :=
  "SELECT".data.isPrefixOf (pyUpper (pyStrip q.data))

/-- A path is absolute when it starts with the separator. -/
def isAbsPath (p : String) : Bool :=
  match p.data with
  | '/' :: _ => true
  | _ => false

/-- `os.path.join`: an absolute second component replaces the first. -/
def pathJoin (a b : String) : String :=
  if isAbsPath b then b else a ++ "/" ++ b

/-- `os.path.abspath` relative to the process working directory
(modulo `.`/`..` normalization, which no path here uses). -/
def abspath (cwd p : String) : String :=
  if isAbsPath p then p else cwd ++ "/" ++ p

/-- Injectable filesystem failures: opening or creating at a path
raises PermissionError or another OSError. -/
inductive IOErr where
  | permission
  | osErr (msg : String)
deriving DecidableEq

/-- Filesystem state: working directory, file contents by absolute
path, directories created, and the paths whose open/makedirs raise. -/
structure FS where
  cwd : String
  files : String → Option String
  dirs : String → Bool
  ioErr : String → Option IOErr

/-- The two timestamp renderings `datetime.now().strftime` produces in
tools.py: the banner form `%Y-%m-%d %H:%M:%S` and the filename form
`%Y%m%d_%H%M%S`. -/
structure Clock where
  bannerStamp : String
  fileStamp : String

/-- Shape of the filename timestamp: eight digits, an underscore, six
digits (`YYYYMMDD_HHMMSS`). -/
def fileStampWF (s : String) : Bool :=
  (s.data.take 8).length = 8 && (s.data.take 8).all isDigitC &&
    (match s.data.drop 8 with
     | '_' :: rest => rest.length = 6 && rest.all isDigitC
     | _ => false)

/-- Outcome of `cursor.execute` on one statement: a result set with
column metadata (`cursor.description` non-null), a successful statement
with no result set, or a raised `sqlite3.Error`. -/
inductive DBOutcome where
  | rows (rs : RowSet)
  | noData
  | sqlError (msg : String)
deriving DecidableEq

/-- The database connection, as the oracle the tools query. -/
structure DBConn where
  exec : String → DBOutcome

/-- Python exceptions that can arise in the modelled code. -/
inductive PyExn where
  | sqlite (msg : String)
  | ioPermission
  | ioOs (msg : String)
  | indexError
deriving DecidableEq

/-- Exception raised for an injected filesystem failure. -/
def IOErr.toExn : IOErr → PyExn
  | .permission => .ioPermission
  | .osErr m => .ioOs m

/-- `type(e).__name__` of a modelled exception. -/
def exnTypeName : PyExn → String
  | .sqlite _ => "Error"
  | .ioPermission => "PermissionError"
  | .ioOs _ => "OSError"
  | .indexError => "IndexError"

/-- `str(e)` of a modelled exception. -/
def exnStr : PyExn → String
  | .sqlite m => m
  | .ioPermission => ""
  | .ioOs m => m
  | .indexError => "list index out of range"

/-- The well-known global artifact filename (tools.py line 27). -/
def globalCsvName : String := "query_results.csv"

/-- The banner block the autosave appends: timestamped banner line,
first 100 characters of the SQL followed by an ellipsis, then the
parsed rows (tools.py lines 36-40). -/
def autoSaveBlock (clk : Clock) (query : String) (data : List PyObj) : String :=
  csvRow ["=== AUTO-SAVED Query at: " ++ clk.bannerStamp ++ " ==="] ++
    csvRow ["SQL: " ++ query.take 100 ++ "..."] ++
    renderRows data

/-- `_auto_save_to_global_csv` (tools.py lines 8-45): no-op unless the
statement is a SELECT, the result parses, and the parsed value is a
truthy list; appends a blank separator record when the file already
exists; every failure (parse or I/O) is swallowed and leaves the
filesystem unchanged. -/
def auto_save_to_global_csv (fs : FS) (clk : Clock) (query result : String) : FS :=
  if !startsSelect query then fs
  else
    match parseAll result with
    | Option.none => fs
    | some d =>
      if !pyTruthy d then fs
      else
        match d with
        | .list xs =>
          let absp := abspath fs.cwd globalCsvName
          match fs.ioErr absp with
          | some _ => fs
          | Option.none =>
            let oldFile := fs.files absp
            let content := oldFile.getD "" ++ (if oldFile.isSome then crlf else "") ++
              autoSaveBlock clk query xs
            { fs with files := fun p => if p = absp then some content else fs.files p }
        | _ => fs

/-- Result of `execute_sql`: the returned (or escaped-exception) value,
the final history, whether `conn.commit()` ran, and the filesystem. -/
structure ExecOut where
  ret : Except PyExn String
  history : Option (List String)
  committed : Bool
  fs : FS

/-- The fixed success message for write-style statements. -/
def successMsg : String := "Query executed successfully (no data returned)."

/-- `execute_sql` (tools.py lines 47-73): append the statement to the
history first, then run it; a result set is serialized with `str`,
autosaved best-effort and returned; otherwise commit and return the
fixed message; a raised `sqlite3.Error` is caught and returned as an
`"Error: "`-prefixed string. -/
def execute_sql (conn : DBConn) (fs : FS) (clk : Clock) (query : String)
    (history : Option (List String)) : ExecOut :=
  let h1 := history.map fun h => h ++ [query]
  let body : Except PyExn (String × Bool × FS) :=
    match conn.exec query with
    | .rows rs =>
      let result := serializeRowSet rs
      .ok (result, false, auto_save_to_global_csv fs clk query result)
    | .noData => .ok (successMsg, true, fs)
    | .sqlError e => .error (.sqlite e)
  match body with
  | .ok (r, c, fs1) => ⟨.ok r, h1, c, fs1⟩
  | .error (.sqlite e) => ⟨.ok ("Error: " ++ e), h1, false, fs⟩
  | .error e => ⟨.error e, h1, false, fs⟩

/-- A single-quote as a string, for building SQL text. -/
def sqQ : String := String.singleton squote

/-- The catalog query `get_schema` issues when no table is named. -/
def catalogQuery : String :=
  "SELECT name FROM sqlite_master WHERE type=" ++ sqQ ++ "table" ++ sqQ ++ ";"

/-- Python `row[i]`: IndexError when out of range. -/
def rowItem (r : Row) (i : Nat) : Except PyExn PyVal :=
  match r[i]? with
  | some v => .ok v
  | Option.none => .error .indexError

/-- Evaluate a list comprehension whose element expression can raise:
elements are computed in order and the first exception propagates. -/
def exceptMap {A B : Type} (f : A → Except PyExn B) : List A → Except PyExn (List B)
  | [] => .ok []
  | x :: xs =>
    match f x with
    | .ok y =>
      (match exceptMap f xs with
       | .ok ys => .ok (y :: ys)
       | .error e => .error e)
    | .error e => .error e

/-- The element expression `(col[1], col[2])` of the comprehension in
`get_schema` (tools.py line 84). -/
def colPair (col : Row) : Except PyExn PyObj :=
  match rowItem col 1 with
  | .ok nm =>
    (match rowItem col 2 with
     | .ok ty => .ok (PyObj.tuple [.v nm, .v ty])
     | .error e => .error e)
  | .error e => .error e

/-- The all-tables branch of `get_schema`: list table names from the
catalog and render them as a serialized list. -/
def listAllTables (conn : DBConn) : Except PyExn String :=
  match conn.exec catalogQuery with
  | .rows rs =>
    (match exceptMap (fun r => rowItem r 0) rs with
     | .ok names => .ok ⟨objRepr (.list (names.map fun v => .v v))⟩
     | .error e => .error e)
  | .noData => .ok ⟨objRepr (.list [])⟩
  | .sqlError e => .error (.sqlite e)

/-- `get_schema` (tools.py lines 76-90): with a (truthy) table name,
interpolate it into `PRAGMA table_info(...)` and render the
(name, type) pairs; otherwise list all tables.  There is no exception
handler, so a raised database error escapes. -/
def get_schema (conn : DBConn) (tableName : Option String) : Except PyExn String :=
  match tableName with
  | some name =>
    if name = "" then listAllTables conn
    else
      match conn.exec ("PRAGMA table_info(" ++ name ++ ");") with
      | .rows cols =>
        (match exceptMap colPair cols with
         | .ok pairs => .ok ⟨objRepr (.list pairs)⟩
         | .error e => .error e)
      | .noData => .ok ⟨objRepr (.list [])⟩
      | .sqlError e => .error (.sqlite e)
  | Option.none => listAllTables conn

/-- Filename normalization in `save_data_to_csv` (tools.py lines
131-138): synthesize `query_<stamp>.csv` for an empty name, otherwise
append `.csv` unless the lowercased name already ends with it. -/
def csvNameNorm (clk : Clock) (filename : String) : String :=
  if filename = "" then "query_" ++ clk.fileStamp ++ ".csv"
  else if ".csv".data.isSuffixOf (pyLower filename.data) then filename
  else filename ++ ".csv"

/-- Error text for an unparseable data string. -/
def parseErrMsg : String := "Error: Provided data string could not be parsed into a list."

/-- Error text for falsy data. -/
def emptyErrMsg : String := "Error: No data provided. The data list is empty."

/-- Error text for non-list data. -/
def notListMsg (d : PyObj) : String :=
  "Error: Data must be a list, received " ++ pyTypeName d ++ "."

/-- The PermissionError handler's message (uses the normalized name,
since the variable was reassigned before any raising operation). -/
def permErrMsg (name : String) : String :=
  "Error: Permission denied. Cannot write to " ++ name ++ "."

/-- The OSError handler's message. -/
def osErrMsg (m : String) : String := "Error: OS error occurred - " ++ m

/-- Optional description header: generation timestamp, description,
blank record (tools.py lines 148-152). -/
def saveHeader (clk : Clock) (desc : String) : String :=
  if desc = "" then ""
  else csvRow ["Generated at: " ++ clk.bannerStamp] ++
    csvRow ["Description: " ++ desc] ++ crlf

/-- `os.makedirs(dir, exist_ok=True)`: create the directory or raise
the injected failure (carrying the filesystem state at the raise). -/
def makedirs (fs : FS) (dir : String) : Except (PyExn × FS) FS :=
  match fs.ioErr dir with
  | some e => .error (e.toExn, fs)
  | Option.none => .ok { fs with dirs := fun p => if p = dir then true else fs.dirs p }

/-- `open(path, 'w')` plus writing the full content: overwrite the file
or raise the injected failure. -/
def openWriteAll (fs : FS) (absp content : String) : Except (PyExn × FS) FS :=
  match fs.ioErr absp with
  | some e => .error (e.toExn, fs)
  | Option.none => .ok { fs with files := fun p => if p = absp then some content else fs.files p }

/-- The effective data that `save_data_to_csv` validates: a string
argument goes through `ast.literal_eval` (tools.py lines 109-113),
anything else is used as-is. -/
def saveEffData : PyObj → Option PyObj
  | .v (.str s) => parseAll s
  | d => some d

/-- The body of `save_data_to_csv` inside its try (tools.py lines
107-155): parse string data, validate truthiness and list-ness,
normalize rows, normalize the filename, create the output directory,
and overwrite the file. -/
def save_body (fs : FS) (clk : Clock) (data : PyObj) (filename desc : String) :
    Except (PyExn × FS) (String × FS) :=
  match saveEffData data with
  | Option.none => .ok (parseErrMsg, fs)
  | some d =>
    if !pyTruthy d then .ok (emptyErrMsg, fs)
    else
      match d with
      | .list xs =>
        let rows := xs.map normalizeRow
        let name := csvNameNorm clk filename
        let baseDir := pathJoin fs.cwd "files"
        (makedirs fs baseDir).bind fun fs1 =>
          let absp := abspath fs1.cwd (pathJoin baseDir name)
          (openWriteAll fs1 absp (saveHeader clk desc ++ renderNormRows rows)).bind fun fs2 =>
            .ok ("Success: Data saved to individual file " ++ absp, fs2)
      | d1 => .ok (notListMsg d1, fs)

/-- Result of `save_data_to_csv`: returned (or escaped) value and the
filesystem. -/
structure SaveOut where
  ret : Except PyExn String
  fs : FS

/-- `save_data_to_csv` (tools.py lines 93-161): the body wrapped in the
handler chain `except PermissionError` / `except OSError` /
`except Exception`, each converting the exception to a returned error
string, so nothing escapes. -/
def save_data_to_csv (fs : FS) (clk : Clock) (data : PyObj) (filename desc : String) :
    SaveOut :=
  match save_body fs clk data filename desc with
  | .ok (msg, fs1) => ⟨.ok msg, fs1⟩
  | .error (.ioPermission, fs1) => ⟨.ok (permErrMsg (csvNameNorm clk filename)), fs1⟩
  | .error (.ioOs m, fs1) => ⟨.ok (osErrMsg m), fs1⟩
  | .error (e, fs1) =>
    ⟨.ok ("Error: Failed to save data - " ++ exnTypeName e ++ ": " ++ exnStr e), fs1⟩

/-- Delimiter characters that can follow a token inside a serialized
RowSet. -/
def isStopC (c : Char) : Bool := c = ',' || c = ')' || c = ']'

/-- Input that may legally follow a parsed token: end of input or a
delimiter. -/
def stopTok : List Char → Bool
  | [] => true
  | c :: _ => isStopC c

/-- Fuel sufficient for `parseElems` on serialized rows. -/
def listNeed : RowSet → Nat
  | [] => 1
  | r :: t => 1 + max (r.length + 6) (listNeed t)

/-- `isinstance(data, list)`. -/
def isPyList : PyObj → Bool
  | .list _ => true
  | _ => false

/-- The call returned normally, with no escaped exception. -/
def retOk {A : Type} : Except PyExn A → Bool
  | .ok _ => true
  | .error _ => false

/-- The statement `get_schema` sends to the database for a given
argument (an empty string is falsy in Python, so it selects the
all-tables branch). -/
def schemaQuery (tableName : Option String) : String :=
  match tableName with
  | some name => if name = "" then catalogQuery else "PRAGMA table_info(" ++ name ++ ");"
  | Option.none => catalogQuery

/-- The catalog query returned without a database error and its rows
are wide enough for the indexing `[table[0] for table in tables]`
performs (real SQLite always returns one-column rows here). -/
def catalogOK (conn : DBConn) : Prop :=
  match conn.exec catalogQuery with
  | .sqlError _ => False
  | .noData => True
  | .rows rs => ∀ r ∈ rs, 1 ≤ r.length

/-- The statement `get_schema` issues executes without a database
error, and any returned rows are wide enough for the indexing the code
performs (as real SQLite catalog and `table_info` rows always are). -/
def schemaQueryOK (conn : DBConn) (tableName : Option String) : Prop :=
  match tableName with
  | some name =>
    if name = "" then catalogOK conn
    else
      match conn.exec ("PRAGMA table_info(" ++ name ++ ");") with
      | .sqlError _ => False
      | .noData => True
      | .rows rs => ∀ r ∈ rs, 3 ≤ r.length
  | Option.none => catalogOK conn

/-- The written name ends with the `.csv` suffix exactly once,
case-insensitively: it has the suffix but not a doubled one. -/
def csvSuffixOnce (s : String) : Bool :=
  ".csv".data.isSuffixOf (pyLower s.data) && !".csv.csv".data.isSuffixOf (pyLower s.data)

/-- A concrete empty filesystem, used to instantiate the theorems. -/
def fs0 : FS := ⟨"/cwd", fun _ => Option.none, fun _ => false, fun _ => Option.none⟩

/-- A concrete clock. -/
def clk0 : Clock := ⟨"2025-01-01 00:00:00", "20250101_000000"⟩

/-- A connection consistent with real SQLite on the statements the
instances below use: `SELECT 1` yields one row, `not sql` raises a
syntax error, and the `PRAGMA table_info());` text produced by
interpolating the table name `)` raises a syntax error. -/
def conn0 : DBConn :=
  ⟨fun q =>
    if q = "SELECT 1" then .rows [[.int 1]]
    else if q = "not sql" then .sqlError "syntax error"
    else if q = "PRAGMA table_info());" then .sqlError "syntax error"
    else .noData⟩

/-- A filesystem on which the global artifact exists but is empty. -/
def fsEmptyGlobal : FS :=
  ⟨"/cwd", fun p => if p = "/cwd/query_results.csv" then some "" else Option.none,
   fun _ => false, fun _ => Option.none⟩

/-!  Helper lemmas about the character utilities and the parser. -/

theorem skipWs_cons_not (c : Char) (cs : List Char) (h : (c = ' ' || c = '\t') = false) :
    skipWs (c :: cs) = c :: cs := by
  simp only [skipWs, List.dropWhile_cons, h]
  simp

theorem skipWs_space (cs : List Char) : skipWs (' ' :: cs) = skipWs cs := by
  simp [skipWs, List.dropWhile_cons]

theorem takeWhile_append_stop (p : Char → Bool) (d r : List Char)
    (hd : d.all p = true) (hr : ∀ c, r.head? = some c → p c = false) :
    (d ++ r).takeWhile p = d ∧ (d ++ r).dropWhile p = r := by
  induction d with
  | nil =>
    cases r with
    | nil => simp
    | cons c t =>
      have hc := hr c rfl
      simp [List.takeWhile_cons, List.dropWhile_cons, hc]
  | cons x d ih =>
    simp only [List.all_cons, Bool.and_eq_true] at hd
    have := ih hd.2
    simp [List.takeWhile_cons, List.dropWhile_cons, hd.1, this.1, this.2]

theorem digitCh_facts :
    ∀ n, n < 10 → isDigitC (digitCh n) = true ∧ (digitCh n).toNat = 48 + n ∧
      (0 < n → digitCh n ≠ '0') := by decide

theorem digitsVal_append_one (xs : List Char) (c : Char) :
    digitsVal (xs ++ [c]) = digitsVal xs * 10 + (c.toNat - 48) := by
  simp [digitsVal, List.foldl_append]

theorem natReprAux_ok : ∀ f n, n < f →
    natReprAux f n ≠ [] ∧ (natReprAux f n).all isDigitC = true ∧
      digitsVal (natReprAux f n) = n ∧ (0 < n → (natReprAux f n).head? ≠ some '0') := by
  intro f
  induction f with
  | zero => omega
  | succ f ih =>
    intro n hn
    by_cases h10 : n < 10
    · simp only [natReprAux, if_pos h10]
      obtain ⟨hdig, htn, hz⟩ := digitCh_facts n h10
      refine ⟨by simp, by simp [hdig], ?_, ?_⟩
      · simp [digitsVal, htn]
      · intro hpos heq
        exact hz hpos (by simpa using heq)
    · have hd : n / 10 < f := by omega
      obtain ⟨hne, hall, hval, hhead⟩ := ih (n / 10) hd
      obtain ⟨hdig, htn, _⟩ := digitCh_facts (n % 10) (Nat.mod_lt _ (by omega))
      simp only [natReprAux, if_neg h10]
      refine ⟨by simp, ?_, ?_, ?_⟩
      · simp [List.all_append, hall, hdig]
      · rw [digitsVal_append_one, hval, htn]
        omega
      · intro _
        rw [List.head?_append_of_ne_nil _ hne]
        exact hhead (by omega)

theorem natRepr_ok (n : Nat) :
    natRepr n ≠ [] ∧ (natRepr n).all isDigitC = true ∧ digitsVal (natRepr n) = n ∧
      (0 < n → (natRepr n).head? ≠ some '0') :=
  natReprAux_ok (n + 1) n (by omega)

theorem intTokOK_natRepr (n : Nat) : intTokOK (natRepr n) = true := by
  obtain ⟨hne, _, hval, hhead⟩ := natRepr_ok n
  cases h : natRepr n with
  | nil => exact absurd h hne
  | cons c t =>
    simp only [intTokOK]
    by_cases hc : c = '0'
    · subst hc
      rcases Nat.eq_zero_or_pos n with h0 | hpos
      · subst h0
        have : natRepr 0 = ['0'] := by decide
        rw [this] at h
        cases h
        simp
      · exact absurd (by rw [h]; rfl) (hhead hpos)
    · simp [hc]

theorem isStopC_elim (c : Char) (h : isStopC c = true) : c = ',' ∨ c = ')' ∨ c = ']' := by
  simpa [isStopC, or_assoc] using h

theorem stop_facts (c : Char) (h : isStopC c = true) :
    isDigitC c = false ∧ isIdentC c = false ∧ (c = ' ' || c = '\t') = false ∧
      c ≠ '.' ∧ c ≠ 'e' ∧ c ≠ 'E' := by
  rcases isStopC_elim c h with h | h | h <;> subst h <;> decide

theorem stopTok_head (rest : List Char) (hr : stopTok rest = true) :
    ∀ c, rest.head? = some c → isStopC c = true := by
  intro c hc
  cases rest with
  | nil => cases hc
  | cons c0 t =>
    cases hc
    simpa [stopTok] using hr

theorem stopTok_head_not_digit (rest : List Char) (hr : stopTok rest = true) :
    ∀ c, rest.head? = some c → isDigitC c = false := by
  intro c hc
  exact (stop_facts c (stopTok_head rest hr c hc)).1

theorem all_takeWhile (p : Char → Bool) (l : List Char) : (l.takeWhile p).all p = true := by
  rw [List.all_eq_true]
  intro c hc
  exact List.mem_takeWhile_imp hc

theorem head_dropWhile_not (p : Char → Bool) (l : List Char) :
    ∀ c, (l.dropWhile p).head? = some c → p c = false := by
  induction l with
  | nil => intro c hc; cases hc
  | cons x t ih =>
    intro c hc
    rw [List.dropWhile_cons] at hc
    by_cases hx : p x = true
    · exact ih c (by simpa [hx] using hc)
    · simp only [hx, if_false] at hc
      cases hc
      simpa using hx

theorem parseNumber_int (n : Nat) (rest : List Char) (hr : stopTok rest = true) :
    parseNumber (natRepr n ++ rest) = some (.v (.int (Int.ofNat n)), rest) := by
  obtain ⟨hne, hall, hval, _⟩ := natRepr_ok n
  obtain ⟨htw, hdw⟩ := takeWhile_append_stop isDigitC (natRepr n) rest hall
    (stopTok_head_not_digit rest hr)
  have hie : (natRepr n).isEmpty = false := by
    cases h : natRepr n with
    | nil => exact absurd h hne
    | cons a b => rfl
  simp only [parseNumber, htw, hdw, hie, Bool.false_eq_true, if_false]
  cases rest with
  | nil => simp [intResult, intTokOK_natRepr, hval]
  | cons c0 t =>
    obtain ⟨_, _, _, hdot, he, hE⟩ := stop_facts c0 (by simpa [stopTok] using hr)
    simp [hdot, he, hE, intResult, intTokOK_natRepr, hval]

theorem expTokEmit_elim (cs : List Char) (h : expTokEmit cs = true) :
    ∃ c t, cs = 'e' :: c :: t ∧ (c = '+' ∨ c = '-') ∧ t ≠ [] ∧ t.all isDigitC = true := by
  cases cs with
  | nil => cases h
  | cons e r =>
    cases r with
    | nil => cases h
    | cons c t =>
      simp only [expTokEmit, Bool.and_eq_true, Bool.not_eq_true', decide_eq_true_eq,
        Bool.or_eq_true] at h
      obtain ⟨⟨⟨he, hsgn⟩, hne⟩, hdig⟩ := h
      exact ⟨c, t, by rw [he], hsgn, by simpa [List.isEmpty_iff] using hne, hdig⟩

theorem parseExp_emit (r3 rest : List Char) (h : expTokEmit r3 = true)
    (hr : stopTok rest = true) : parseExp (r3 ++ rest) = some (r3, rest) := by
  obtain ⟨c, t, hshape, hsgn, htne, htall⟩ := expTokEmit_elim r3 h
  subst hshape
  obtain ⟨htw, hdw⟩ := takeWhile_append_stop isDigitC t rest htall
    (stopTok_head_not_digit rest hr)
  have hsgn' : (c = '+' || c = '-') = true := by
    rcases hsgn with h1 | h1 <;> simp [h1]
  have hte : t.isEmpty = false := by
    cases ht0 : t with
    | nil => exact absurd ht0 htne
    | cons a b => rfl
  have htwe : ((t ++ rest).takeWhile isDigitC).isEmpty = false := by
    rw [htw]; exact hte
  simp [parseExp, hsgn', htw, hdw, htwe, htne]

theorem parseExp_stop (rest : List Char) (hr : stopTok rest = true) :
    parseExp rest = Option.none := by
  cases rest with
  | nil => rfl
  | cons c0 t =>
    obtain ⟨_, _, _, _, he, hE⟩ := stop_facts c0 (by simpa [stopTok] using hr)
    simp [parseExp, he, hE]

theorem parseNumber_finTok (t rest : List Char) (ht : finFloatTokCore t = true)
    (hr : stopTok rest = true) :
    parseNumber (t ++ rest) = some (.v (.float ⟨t⟩), rest) := by
  have hsplit : t.takeWhile isDigitC ++ t.dropWhile isDigitC = t :=
    List.takeWhile_append_dropWhile isDigitC t
  simp only [finFloatTokCore, Bool.and_eq_true, Bool.not_eq_true'] at ht
  obtain ⟨hd1, hrest⟩ := ht
  cases hr1 : t.dropWhile isDigitC with
  | nil => rw [hr1] at hrest; cases hrest
  | cons c r2 =>
    rw [hr1] at hrest
    have hrest' : (if c = '.' then
        !(r2.takeWhile isDigitC).isEmpty &&
          ((r2.dropWhile isDigitC).isEmpty || expTokEmit (r2.dropWhile isDigitC))
      else expTokEmit (c :: r2)) = true := hrest
    have hr1head : ∀ x, (c :: (r2 ++ rest)).head? = some x → isDigitC x = false := by
      intro x hx
      simp only [List.head?_cons, Option.some.injEq] at hx
      rw [← hx]
      exact head_dropWhile_not isDigitC t c (by rw [hr1]; rfl)
    obtain ⟨htw, hdw⟩ := takeWhile_append_stop isDigitC (t.takeWhile isDigitC)
      (c :: (r2 ++ rest)) (all_takeWhile _ _) hr1head
    have happ : t ++ rest = t.takeWhile isDigitC ++ (c :: (r2 ++ rest)) := by
      rw [← List.cons_append, ← List.append_assoc, ← hr1, hsplit]
    rw [happ]
    simp only [parseNumber, htw, hdw, hd1, Bool.false_eq_true, if_false]
    by_cases hc : c = '.'
    · subst hc
      rw [if_pos rfl] at hrest'
      simp only [Bool.and_eq_true, Bool.not_eq_true', Bool.or_eq_true] at hrest'
      obtain ⟨hd2, hor⟩ := hrest'
      have hr3head : ∀ x, (r2.dropWhile isDigitC ++ rest).head? = some x →
          isDigitC x = false := by
        intro x hx
        cases h3 : r2.dropWhile isDigitC with
        | nil =>
          rw [h3] at hx
          exact stopTok_head_not_digit rest hr x (by simpa using hx)
        | cons a b =>
          rw [h3] at hx
          simp only [List.cons_append, List.head?_cons, Option.some.injEq] at hx
          rw [← hx]
          exact head_dropWhile_not isDigitC r2 a (by rw [h3]; rfl)
      obtain ⟨htw2, hdw2⟩ := takeWhile_append_stop isDigitC (r2.takeWhile isDigitC)
        (r2.dropWhile isDigitC ++ rest) (all_takeWhile _ _) hr3head
      have happ2 : r2 ++ rest = r2.takeWhile isDigitC ++ (r2.dropWhile isDigitC ++ rest) := by
        rw [← List.append_assoc, List.takeWhile_append_dropWhile]
      rw [if_pos rfl, happ2]
      simp only [htw2, hdw2, hd2, Bool.false_eq_true, if_false]
      rcases hor with h3e | h3exp
      · have hr3nil : r2.dropWhile isDigitC = [] := by simpa [List.isEmpty_iff] using h3e
        have hr2 : r2.takeWhile isDigitC = r2 := by
          have h0 := List.takeWhile_append_dropWhile isDigitC r2
          rw [hr3nil, List.append_nil] at h0
          exact h0
        have htok : t.takeWhile isDigitC ++ '.' :: r2 = t := by
          conv_rhs => rw [← hsplit, hr1]
        rw [hr3nil]
        simp only [List.nil_append, parseExp_stop rest hr, hr2]
        simp [htok]
      · rw [parseExp_emit _ rest h3exp hr]
        have htok : t.takeWhile isDigitC ++
            ('.' :: (r2.takeWhile isDigitC ++ r2.dropWhile isDigitC)) = t := by
          rw [List.takeWhile_append_dropWhile]
          conv_rhs => rw [← hsplit, hr1]
        have htok2 : (t.takeWhile isDigitC ++ '.' :: r2.takeWhile isDigitC) ++
            r2.dropWhile isDigitC = t := by
          rw [List.append_assoc, List.cons_append]
          exact htok
        simp only [htok2]
    · have hexp : expTokEmit (c :: r2) = true := by
        rw [if_neg hc] at hrest'
        exact hrest'
      obtain ⟨c1, t1, hshape, _, _, _⟩ := expTokEmit_elim _ hexp
      have hce : c = 'e' := by
        injection hshape with h1 h2
      subst hce
      have hpe : parseExp ('e' :: (r2 ++ rest)) = some ('e' :: r2, rest) := by
        have h0 := parseExp_emit ('e' :: r2) rest hexp hr
        simpa using h0
      have htok : t.takeWhile isDigitC ++ 'e' :: r2 = t := by
        conv_rhs => rw [← hsplit, hr1]
      simp [hc, hpe, htok]

theorem parseKeyword_at (w rest : List Char) (hw : w.all isIdentC = true)
    (hr : stopTok rest = true) :
    parseKeyword (w ++ rest) =
      (if w = "None".data then some (.v .none, rest)
       else if w = "True".data then some (.v (.bool true), rest)
       else if w = "False".data then some (.v (.bool false), rest)
       else Option.none) := by
  have hhead : ∀ c, rest.head? = some c → isIdentC c = false := by
    intro c hc
    exact (stop_facts c (stopTok_head rest hr c hc)).2.1
  obtain ⟨htw, hdw⟩ := takeWhile_append_stop isIdentC w rest hw hhead
  simp only [parseKeyword, htw, hdw]

theorem hexCh_val : ∀ n, n < 16 → hexVal? (hexCh n) = some n := by decide

theorem parseStrBody_escChar (q c : Char) (hq : q = squote ∨ q = dquote) (tail : List Char) :
    parseStrBody q (escChar q c ++ tail) =
      (parseStrBody q tail).map fun r => (c :: r.1, r.2) := by
  have hqb : ¬bslash = q := by rcases hq with h | h <;> subst h <;> decide
  have hbx : (bslash = 'x') = False := by simp [bslash]
  by_cases h1 : c = bslash
  · subst h1
    rw [show escChar q bslash = [bslash, bslash] from by rw [escChar, if_pos rfl]]
    rw [List.cons_append, List.cons_append, List.nil_append, parseStrBody.eq_def]
    simp [hqb, hbx, show unescChar? bslash = some bslash from rfl]
  · by_cases h2 : c = q
    · subst h2
      rw [show escChar c c = [bslash, c] from by rw [escChar, if_neg h1, if_pos rfl]]
      rw [List.cons_append, List.cons_append, List.nil_append, parseStrBody.eq_def]
      simp [hqb, show (c = 'x') = False from by
          rcases hq with h | h <;> subst h <;> simp [squote, dquote],
        show unescChar? c = some c from by rcases hq with h | h <;> subst h <;> rfl]
    · by_cases h3 : c = '\t'
      · subst h3
        rw [show escChar q '\t' = [bslash, 't'] from by
          rw [escChar, if_neg h1, if_neg h2, if_pos rfl]]
        rw [List.cons_append, List.cons_append, List.nil_append, parseStrBody.eq_def]
        simp [hqb, show unescChar? 't' = some '\t' from rfl]
      · by_cases h4 : c = '\n'
        · subst h4
          rw [show escChar q '\n' = [bslash, 'n'] from by
            rw [escChar, if_neg h1, if_neg h2, if_neg h3, if_pos rfl]]
          rw [List.cons_append, List.cons_append, List.nil_append, parseStrBody.eq_def]
          simp [hqb, show unescChar? 'n' = some '\n' from rfl]
        · by_cases h5 : c = '\r'
          · subst h5
            rw [show escChar q '\r' = [bslash, 'r'] from by
              rw [escChar, if_neg h1, if_neg h2, if_neg h3, if_neg h4, if_pos rfl]]
            rw [List.cons_append, List.cons_append, List.nil_append, parseStrBody.eq_def]
            simp [hqb, show unescChar? 'r' = some '\r' from rfl]
          · by_cases h6 : c.toNat < 32 ∨ c.toNat = 127
            · have hcond : (c.toNat < 32 || c.toNat = 127) = true := by
                rcases h6 with h | h <;> simp [h]
              rw [show escChar q c =
                  [bslash, 'x', hexCh (c.toNat / 16), hexCh (c.toNat % 16)] from by
                rw [escChar, if_neg h1, if_neg h2, if_neg h3, if_neg h4, if_neg h5,
                  if_pos hcond]]
              have hofn : Char.ofNat (16 * (c.toNat / 16) + c.toNat % 16) = c := by
                have h0 : 16 * (c.toNat / 16) + c.toNat % 16 = c.toNat := by omega
                rw [h0, Char.ofNat_toNat]
              rw [List.cons_append, List.cons_append, List.cons_append, List.cons_append,
                List.nil_append, parseStrBody.eq_def]
              simp [hqb, hexCh_val (c.toNat / 16) (by omega),
                hexCh_val (c.toNat % 16) (by omega), hofn]
            · have hcond : (c.toNat < 32 || c.toNat = 127) = false := by
                simp only [Bool.or_eq_false_iff, decide_eq_false_iff_not]
                exact ⟨fun h => h6 (Or.inl h), fun h => h6 (Or.inr h)⟩
              rw [show escChar q c = [c] from by
                rw [escChar, if_neg h1, if_neg h2, if_neg h3, if_neg h4, if_neg h5]
                simp [hcond]]
              rw [List.cons_append, List.nil_append, parseStrBody.eq_def]
              simp [h1, h2]

theorem parseStrBody_escBody (q : Char) (hq : q = squote ∨ q = dquote) (s rest : List Char) :
    parseStrBody q (escBody q s ++ q :: rest) = some (s, rest) := by
  induction s with
  | nil =>
    show parseStrBody q (q :: rest) = some ([], rest)
    rw [parseStrBody.eq_def]
    simp
  | cons c cs ih =>
    rw [escBody, List.append_assoc, parseStrBody_escChar q c hq, ih]
    rfl

theorem parseObj_unfold (f : Nat) (cs : List Char) :
    parseObj (f + 1) cs =
      (match skipWs cs with
       | [] => Option.none
       | c :: r =>
         if c = '[' then (parseElems f r).map fun p => (PyObj.list p.1, p.2)
         else if c = '(' then parseParen f r
         else if c = '-' then
           match parseObj f r with
           | some (o, r1) => (pyNeg o).map fun o1 => (o1, r1)
           | Option.none => Option.none
         else if c = squote || c = dquote then
           (parseStrBody c r).map fun p => (.v (.str ⟨p.1⟩), p.2)
         else if isDigitC c then parseNumber (c :: r)
         else if isIdentC c then parseKeyword (c :: r)
         else Option.none) := rfl

theorem parseElems_unfold (f : Nat) (cs : List Char) :
    parseElems (f + 1) cs =
      (match skipWs cs with
       | [] => Option.none
       | c :: r =>
         if c = ']' then some ([], r)
         else
           match parseObj f (c :: r) with
           | some (o, r1) =>
             (match skipWs r1 with
              | [] => Option.none
              | c2 :: r2 =>
                if c2 = ',' then (parseElems f r2).map fun p => (o :: p.1, p.2)
                else if c2 = ']' then some ([o], r2)
                else Option.none)
           | Option.none => Option.none) := rfl

theorem parseParen_unfold (f : Nat) (cs : List Char) :
    parseParen (f + 1) cs =
      (match skipWs cs with
       | [] => Option.none
       | c :: r =>
         if c = ')' then some (.tuple [], r)
         else
           match parseObj f (c :: r) with
           | some (o, r1) =>
             (match skipWs r1 with
              | [] => Option.none
              | c2 :: r2 =>
                if c2 = ')' then some (o, r2)
                else if c2 = ',' then
                  (parseTupElems f r2).map fun p => (PyObj.tuple (o :: p.1), p.2)
                else Option.none)
           | Option.none => Option.none) := rfl

theorem parseTupElems_unfold (f : Nat) (cs : List Char) :
    parseTupElems (f + 1) cs =
      (match skipWs cs with
       | [] => Option.none
       | c :: r =>
         if c = ')' then some ([], r)
         else
           match parseObj f (c :: r) with
           | some (o, r1) =>
             (match skipWs r1 with
              | [] => Option.none
              | c2 :: r2 =>
                if c2 = ',' then (parseTupElems f r2).map fun p => (o :: p.1, p.2)
                else if c2 = ')' then some ([o], r2)
                else Option.none)
           | Option.none => Option.none) := rfl

theorem parseObj_succ (f : Nat) (c : Char) (r : List Char)
    (hws : (c = ' ' || c = '\t') = false) :
    parseObj (f + 1) (c :: r) =
      (if c = '[' then (parseElems f r).map fun p => (PyObj.list p.1, p.2)
       else if c = '(' then parseParen f r
       else if c = '-' then
         match parseObj f r with
         | some (o, r1) => (pyNeg o).map fun o1 => (o1, r1)
         | Option.none => Option.none
       else if c = squote || c = dquote then
         (parseStrBody c r).map fun p => (.v (.str ⟨p.1⟩), p.2)
       else if isDigitC c then parseNumber (c :: r)
       else if isIdentC c then parseKeyword (c :: r)
       else Option.none) := by
  rw [parseObj_unfold, skipWs_cons_not c r hws]

theorem parseElems_succ (f : Nat) (c : Char) (r : List Char)
    (hws : (c = ' ' || c = '\t') = false) :
    parseElems (f + 1) (c :: r) =
      (if c = ']' then some ([], r)
       else
         match parseObj f (c :: r) with
         | some (o, r1) =>
           (match skipWs r1 with
            | [] => Option.none
            | c2 :: r2 =>
              if c2 = ',' then (parseElems f r2).map fun p => (o :: p.1, p.2)
              else if c2 = ']' then some ([o], r2)
              else Option.none)
         | Option.none => Option.none) := by
  rw [parseElems_unfold, skipWs_cons_not c r hws]

theorem parseParen_succ (f : Nat) (c : Char) (r : List Char)
    (hws : (c = ' ' || c = '\t') = false) :
    parseParen (f + 1) (c :: r) =
      (if c = ')' then some (.tuple [], r)
       else
         match parseObj f (c :: r) with
         | some (o, r1) =>
           (match skipWs r1 with
            | [] => Option.none
            | c2 :: r2 =>
              if c2 = ')' then some (o, r2)
              else if c2 = ',' then
                (parseTupElems f r2).map fun p => (PyObj.tuple (o :: p.1), p.2)
              else Option.none)
         | Option.none => Option.none) := by
  rw [parseParen_unfold, skipWs_cons_not c r hws]

theorem parseTupElems_succ (f : Nat) (c : Char) (r : List Char)
    (hws : (c = ' ' || c = '\t') = false) :
    parseTupElems (f + 1) (c :: r) =
      (if c = ')' then some ([], r)
       else
         match parseObj f (c :: r) with
         | some (o, r1) =>
           (match skipWs r1 with
            | [] => Option.none
            | c2 :: r2 =>
              if c2 = ',' then (parseTupElems f r2).map fun p => (o :: p.1, p.2)
              else if c2 = ')' then some ([o], r2)
              else Option.none)
         | Option.none => Option.none) := by
  rw [parseTupElems_unfold, skipWs_cons_not c r hws]

theorem digit_not_special (c : Char) (h : isDigitC c = true) :
    (c = ' ' || c = '\t') = false ∧ ¬c = '[' ∧ ¬c = '(' ∧ ¬c = '-' ∧
      (c = squote || c = dquote) = false := by
  refine ⟨?_, fun he => ?_, fun he => ?_, fun he => ?_, ?_⟩
  · by_cases hs : c = ' '
    · subst hs; exact absurd h (by decide)
    · by_cases ht : c = '\t'
      · subst ht; exact absurd h (by decide)
      · simp [hs, ht]
  · subst he; exact absurd h (by decide)
  · subst he; exact absurd h (by decide)
  · subst he; exact absurd h (by decide)
  · by_cases hs : c = squote
    · subst hs; exact absurd h (by decide)
    · by_cases ht : c = dquote
      · subst ht; exact absurd h (by decide)
      · simp [hs, ht]

theorem parseObj_natRepr (m : Nat) : ∀ f rest, 1 ≤ f → stopTok rest = true →
    parseObj f (natRepr m ++ rest) = some (.v (.int (Int.ofNat m)), rest) := by
  intro f rest hf hr
  obtain ⟨f1, rfl⟩ : ∃ g, f = g + 1 := ⟨f - 1, by omega⟩
  obtain ⟨hne, hall, _, _⟩ := natRepr_ok m
  cases hnr : natRepr m with
  | nil => exact absurd hnr hne
  | cons c t =>
    have hcd : isDigitC c = true := by
      rw [hnr] at hall
      simp only [List.all_cons, Bool.and_eq_true] at hall
      exact hall.1
    obtain ⟨hws, hlb, hlp, hlm, hlq⟩ := digit_not_special c hcd
    rw [List.cons_append, parseObj_succ f1 c (t ++ rest) hws, if_neg hlb, if_neg hlp,
      if_neg hlm, if_neg (by simp [hlq]), if_pos hcd]
    have heq : c :: (t ++ rest) = natRepr m ++ rest := by rw [hnr]; rfl
    rw [heq, parseNumber_int m rest hr]

theorem parseObj_intRepr (n : Int) : ∀ f rest, 2 ≤ f → stopTok rest = true →
    parseObj f (intRepr n ++ rest) = some (.v (.int n), rest) := by
  intro f rest hf hr
  by_cases hneg : n < 0
  · obtain ⟨f1, rfl⟩ : ∃ g, f = g + 1 := ⟨f - 1, by omega⟩
    rw [intRepr, if_pos hneg, List.cons_append, parseObj_succ f1 '-' _ (by decide),
      if_neg (by decide), if_neg (by decide), if_pos rfl,
      parseObj_natRepr n.natAbs f1 rest (by omega) hr]
    have hn : -(Int.ofNat n.natAbs) = n := by rw [Int.ofNat_eq_natCast]; omega
    have hstep : (pyNeg (.v (.int (Int.ofNat n.natAbs)))).map (fun o1 => (o1, rest))
        = some (PyObj.v (PyVal.int n), rest) := by
      rw [show pyNeg (PyObj.v (PyVal.int (Int.ofNat n.natAbs)))
          = some (PyObj.v (PyVal.int (-(Int.ofNat n.natAbs)))) from rfl, hn]
      rfl
    exact hstep
  · have hn : Int.ofNat n.toNat = n := by rw [Int.ofNat_eq_natCast]; omega
    rw [intRepr, if_neg hneg, parseObj_natRepr n.toNat f rest (by omega) hr, hn]

theorem parseObj_finTokCore (t : List Char) (ht : finFloatTokCore t = true) :
    ∀ f rest, 1 ≤ f → stopTok rest = true →
      parseObj f (t ++ rest) = some (.v (.float ⟨t⟩), rest) := by
  intro f rest hf hr
  obtain ⟨f1, rfl⟩ : ∃ g, f = g + 1 := ⟨f - 1, by omega⟩
  cases htc : t with
  | nil =>
    rw [htc] at ht
    simp [finFloatTokCore] at ht
  | cons c t2 =>
    subst htc
    have hcd : isDigitC c = true := by
      simp only [finFloatTokCore, Bool.and_eq_true, Bool.not_eq_true'] at ht
      obtain ⟨hd1, _⟩ := ht
      by_contra hnc
      have hf0 : isDigitC c = false := by simpa using hnc
      rw [List.takeWhile_cons, hf0] at hd1
      simp at hd1
    obtain ⟨hws, hlb, hlp, hlm, hlq⟩ := digit_not_special c hcd
    rw [List.cons_append, parseObj_succ f1 c _ hws, if_neg hlb, if_neg hlp, if_neg hlm,
      if_neg (by simp [hlq]), if_pos hcd]
    have heq : c :: (t2 ++ rest) = (c :: t2) ++ rest := rfl
    rw [heq, parseNumber_finTok (c :: t2) rest ht hr]

theorem parseObj_valRepr (v : PyVal) (hv : pyValFin v = true) :
    ∀ f rest, 2 ≤ f → stopTok rest = true →
      parseObj f (valRepr v ++ rest) = some (.v v, rest) := by
  intro f rest hf hr
  cases v with
  | int n => exact parseObj_intRepr n f rest hf hr
  | float tok =>
    have hv0 : floatTokFinite tok = true := hv
    cases tok with
    | mk d =>
      cases d with
      | nil => simp [floatTokFinite] at hv0
      | cons c t =>
        have hv1 : (if c = '-' then finFloatTokCore t else finFloatTokCore (c :: t)) = true := by
          simpa [floatTokFinite] using hv0
        by_cases hcm : c = '-'
        · subst hcm
          rw [if_pos rfl] at hv1
          obtain ⟨f1, rfl⟩ : ∃ g, f = g + 1 := ⟨f - 1, by omega⟩
          show parseObj (f1 + 1) ('-' :: t ++ rest) = _
          rw [List.cons_append, parseObj_succ f1 '-' _ (by decide), if_neg (by decide),
            if_neg (by decide), if_pos rfl, parseObj_finTokCore t hv1 f1 rest (by omega) hr]
          simp [pyNeg]
        · rw [if_neg hcm] at hv1
          show parseObj f ((c :: t) ++ rest) = _
          rw [parseObj_finTokCore (c :: t) hv1 f rest (by omega) hr]
  | str s =>
    obtain ⟨f1, rfl⟩ : ∃ g, f = g + 1 := ⟨f - 1, by omega⟩
    by_cases hqc : s.data.contains squote && !s.data.contains dquote
    · have hq : strReprQuote s.data = dquote := by rw [strReprQuote, if_pos hqc]
      show parseObj (f1 + 1) (strRepr s ++ rest) = _
      rw [show strRepr s = dquote :: (escBody dquote s.data ++ [dquote]) from by
        rw [strRepr, hq, List.cons_append]]
      rw [List.cons_append, parseObj_succ f1 dquote _ (by decide), if_neg (by decide),
        if_neg (by decide), if_neg (by decide), if_pos (by decide)]
      rw [List.append_assoc, show [dquote] ++ rest = dquote :: rest from rfl,
        parseStrBody_escBody dquote (Or.inr rfl) s.data rest]
      rfl
    · have hq : strReprQuote s.data = squote := by rw [strReprQuote, if_neg hqc]
      show parseObj (f1 + 1) (strRepr s ++ rest) = _
      rw [show strRepr s = squote :: (escBody squote s.data ++ [squote]) from by
        rw [strRepr, hq, List.cons_append]]
      rw [List.cons_append, parseObj_succ f1 squote _ (by decide), if_neg (by decide),
        if_neg (by decide), if_neg (by decide), if_pos (by decide)]
      rw [List.append_assoc, show [squote] ++ rest = squote :: rest from rfl,
        parseStrBody_escBody squote (Or.inl rfl) s.data rest]
      rfl
  | bool b =>
    obtain ⟨f1, rfl⟩ : ∃ g, f = g + 1 := ⟨f - 1, by omega⟩
    cases b
    · show parseObj (f1 + 1) ('F' :: ("alse".data ++ rest)) = _
      rw [parseObj_succ f1 'F' _ (by decide), if_neg (by decide), if_neg (by decide),
        if_neg (by decide), if_neg (by decide), if_neg (by decide), if_pos (by decide)]
      rw [show 'F' :: ("alse".data ++ rest) = "False".data ++ rest from rfl,
        parseKeyword_at "False".data rest (by decide) hr]
      rw [if_neg (by decide), if_neg (by decide), if_pos rfl]
    · show parseObj (f1 + 1) ('T' :: ("rue".data ++ rest)) = _
      rw [parseObj_succ f1 'T' _ (by decide), if_neg (by decide), if_neg (by decide),
        if_neg (by decide), if_neg (by decide), if_neg (by decide), if_pos (by decide)]
      rw [show 'T' :: ("rue".data ++ rest) = "True".data ++ rest from rfl,
        parseKeyword_at "True".data rest (by decide) hr]
      rw [if_neg (by decide), if_pos rfl]
  | none =>
    obtain ⟨f1, rfl⟩ : ∃ g, f = g + 1 := ⟨f - 1, by omega⟩
    show parseObj (f1 + 1) ('N' :: ("one".data ++ rest)) = _
    rw [parseObj_succ f1 'N' _ (by decide), if_neg (by decide), if_neg (by decide),
      if_neg (by decide), if_neg (by decide), if_neg (by decide), if_pos (by decide)]
    rw [show 'N' :: ("one".data ++ rest) = "None".data ++ rest from rfl,
      parseKeyword_at "None".data rest (by decide) hr]
    rw [if_pos rfl]

theorem parseTupElems_ws (f : Nat) (cs : List Char) :
    parseTupElems (f + 1) (' ' :: cs) = parseTupElems (f + 1) cs := by
  rw [parseTupElems_unfold, parseTupElems_unfold, skipWs_space]

theorem parseElems_ws (f : Nat) (cs : List Char) :
    parseElems (f + 1) (' ' :: cs) = parseElems (f + 1) cs := by
  rw [parseElems_unfold, parseElems_unfold, skipWs_space]

theorem valRepr_head (v : PyVal) (hv : pyValFin v = true) :
    ∃ c t, valRepr v = c :: t ∧ (c = ' ' || c = '\t') = false ∧ ¬c = ')' ∧ ¬c = ']' := by
  cases v with
  | int n =>
    by_cases hneg : n < 0
    · refine ⟨'-', natRepr n.natAbs, ?_, by decide, by decide, by decide⟩
      simp [valRepr, intRepr, hneg]
    · obtain ⟨hne, hall, _, _⟩ := natRepr_ok n.toNat
      cases hnr : natRepr n.toNat with
      | nil => exact absurd hnr hne
      | cons c t =>
        have hcd : isDigitC c = true := by
          rw [hnr] at hall
          simp only [List.all_cons, Bool.and_eq_true] at hall
          exact hall.1
        refine ⟨c, t, ?_, (digit_not_special c hcd).1,
          fun he => by subst he; exact absurd hcd (by decide),
          fun he => by subst he; exact absurd hcd (by decide)⟩
        simp [valRepr, intRepr, hneg, hnr]
  | float tok =>
    have hv0 : floatTokFinite tok = true := hv
    cases tok with
    | mk d =>
      cases d with
      | nil => simp [floatTokFinite] at hv0
      | cons c t =>
        have hv1 : (if c = '-' then finFloatTokCore t else finFloatTokCore (c :: t)) = true := by
          simpa [floatTokFinite] using hv0
        by_cases hcm : c = '-'
        · subst hcm
          exact ⟨'-', t, rfl, by decide, by decide, by decide⟩
        · rw [if_neg hcm] at hv1
          have hcd : isDigitC c = true := by
            simp only [finFloatTokCore, Bool.and_eq_true, Bool.not_eq_true'] at hv1
            obtain ⟨hd1, _⟩ := hv1
            by_contra hnc
            have hf0 : isDigitC c = false := by simpa using hnc
            rw [List.takeWhile_cons, hf0] at hd1
            simp at hd1
          refine ⟨c, t, rfl, (digit_not_special c hcd).1,
            fun he => by subst he; exact absurd hcd (by decide),
            fun he => by subst he; exact absurd hcd (by decide)⟩
  | str s =>
    by_cases hqc : s.data.contains squote && !s.data.contains dquote
    · refine ⟨dquote, escBody dquote s.data ++ [dquote], ?_, by decide, by decide, by decide⟩
      rw [show valRepr (.str s) = strRepr s from rfl, strRepr, strReprQuote, if_pos hqc,
        List.cons_append]
    · refine ⟨squote, escBody squote s.data ++ [squote], ?_, by decide, by decide, by decide⟩
      rw [show valRepr (.str s) = strRepr s from rfl, strRepr, strReprQuote, if_neg hqc,
        List.cons_append]
  | bool b =>
    cases b
    · exact ⟨'F', "alse".data, rfl, by decide, by decide, by decide⟩
    · exact ⟨'T', "rue".data, rfl, by decide, by decide, by decide⟩
  | none => exact ⟨'N', "one".data, rfl, by decide, by decide, by decide⟩

theorem parseTupElems_tail : ∀ (row : List PyVal), row.all pyValFin = true →
    ∀ f rest, row.length + 4 ≤ f →
      parseTupElems f (tupTail (row.map .v) ++ rest) = some (row.map .v, rest) := by
  intro row
  induction row with
  | nil =>
    intro _ f rest hf
    obtain ⟨f1, rfl⟩ : ∃ g, f = g + 1 := ⟨f - 1, by omega⟩
    show parseTupElems (f1 + 1) (')' :: rest) = _
    rw [parseTupElems_succ f1 ')' rest (by decide), if_pos rfl]
    rfl
  | cons y ys ih =>
    intro hv f rest hf
    simp only [List.all_cons, Bool.and_eq_true] at hv
    obtain ⟨hy, hys⟩ := hv
    obtain ⟨f1, rfl⟩ : ∃ g, f = g + 1 := ⟨f - 1, by omega⟩
    obtain ⟨c, t, hvr, hws, hcp, hcb⟩ := valRepr_head y hy
    cases ys with
    | nil =>
      show parseTupElems (f1 + 1) (((' ' :: valRepr y) ++ [')']) ++ rest) = some ([.v y], rest)
      rw [show ((' ' :: valRepr y) ++ [')']) ++ rest = ' ' :: (valRepr y ++ ')' :: rest) from
        by simp]
      rw [parseTupElems_ws f1 (valRepr y ++ ')' :: rest), hvr, List.cons_append,
        parseTupElems_succ f1 c _ hws, if_neg hcp]
      rw [show c :: (t ++ ')' :: rest) = valRepr y ++ ')' :: rest from by rw [hvr]; rfl]
      rw [parseObj_valRepr y hy f1 (')' :: rest) (by omega) rfl]
      simp only [skipWs_cons_not ')' rest (by decide)]
      simp
    | cons z zs =>
      show parseTupElems (f1 + 1)
        (((' ' :: valRepr y) ++ (',' :: tupTail ((z :: zs).map .v))) ++ rest) = _
      rw [show ((' ' :: valRepr y) ++ (',' :: tupTail ((z :: zs).map .v))) ++ rest
          = ' ' :: (valRepr y ++ ',' :: (tupTail ((z :: zs).map .v) ++ rest)) from by simp]
      rw [parseTupElems_ws f1 _, hvr, List.cons_append, parseTupElems_succ f1 c _ hws,
        if_neg hcp]
      rw [show c :: (t ++ ',' :: (tupTail ((z :: zs).map .v) ++ rest))
          = valRepr y ++ ',' :: (tupTail ((z :: zs).map .v) ++ rest) from by rw [hvr]; rfl]
      rw [parseObj_valRepr y hy f1 (',' :: (tupTail ((z :: zs).map .v) ++ rest))
        (by omega) rfl]
      simp only [skipWs_cons_not ',' _ (by decide)]
      have hfuel : (z :: zs).length + 4 ≤ f1 := by simp at hf ⊢; omega
      have hih := ih hys f1 rest hfuel
      simp only [List.map_cons] at hih ⊢
      simp [hih]

theorem objRepr_tuple_head (xs : List PyObj) : ∃ t, objRepr (.tuple xs) = '(' :: t := by
  cases xs with
  | nil => exact ⟨[')'], rfl⟩
  | cons x xs => exact ⟨_, rfl⟩

theorem parseObj_tupleRepr (row : List PyVal) (hv : row.all pyValFin = true) :
    ∀ f rest, row.length + 6 ≤ f →
      parseObj f (objRepr (.tuple (row.map .v)) ++ rest) = some (.tuple (row.map .v), rest) := by
  intro f rest hf
  obtain ⟨f1, rfl⟩ : ∃ g, f = g + 1 := ⟨f - 1, by omega⟩
  obtain ⟨f2, rfl⟩ : ∃ g, f1 = g + 1 := ⟨f1 - 1, by omega⟩
  cases row with
  | nil =>
    show parseObj (f2 + 1 + 1) (('(' :: [')']) ++ rest) = some (.tuple [], rest)
    rw [List.cons_append, parseObj_succ (f2 + 1) '(' _ (by decide), if_neg (by decide),
      if_pos rfl]
    rw [show [')'] ++ rest = ')' :: rest from rfl, parseParen_succ f2 ')' rest (by decide),
      if_pos rfl]
  | cons y ys =>
    simp only [List.all_cons, Bool.and_eq_true] at hv
    obtain ⟨hy, hys⟩ := hv
    obtain ⟨c, t, hvr, hws, hcp, hcb⟩ := valRepr_head y hy
    show parseObj (f2 + 1 + 1)
      ((('(' :: valRepr y) ++ (',' :: tupTail (ys.map .v))) ++ rest) = _
    rw [show (('(' :: valRepr y) ++ (',' :: tupTail (ys.map .v))) ++ rest
        = '(' :: (valRepr y ++ ',' :: (tupTail (ys.map .v) ++ rest)) from by simp]
    rw [parseObj_succ (f2 + 1) '(' _ (by decide), if_neg (by decide), if_pos rfl]
    rw [hvr, List.cons_append, parseParen_succ f2 c _ hws, if_neg hcp]
    rw [show c :: (t ++ ',' :: (tupTail (ys.map .v) ++ rest))
        = valRepr y ++ ',' :: (tupTail (ys.map .v) ++ rest) from by rw [hvr]; rfl]
    rw [parseObj_valRepr y hy f2 (',' :: (tupTail (ys.map .v) ++ rest)) (by omega) rfl]
    simp only [skipWs_cons_not ',' _ (by decide)]
    have htail := parseTupElems_tail ys hys f2 rest (by
      simp only [List.length_cons] at hf
      omega)
    simp [htail]

theorem parseElems_rows : ∀ (rs : RowSet), rowSetFin rs = true →
    ∀ f rest, listNeed rs ≤ f →
      parseElems f (seqBody (rs.map fun r => .tuple (r.map .v)) ++ (']' :: rest))
        = some (rs.map fun r => .tuple (r.map .v), rest) := by
  intro rs
  induction rs with
  | nil =>
    intro _ f rest hf
    rw [show listNeed [] = 1 from rfl] at hf
    obtain ⟨f1, rfl⟩ : ∃ g, f = g + 1 := ⟨f - 1, by omega⟩
    show parseElems (f1 + 1) (']' :: rest) = some ([], rest)
    rw [parseElems_succ f1 ']' rest (by decide), if_pos rfl]
  | cons r rs ih =>
    intro hfin f rest hf
    simp only [rowSetFin, List.all_cons, Bool.and_eq_true] at hfin
    obtain ⟨hr, hrs⟩ := hfin
    have hmax1 : r.length + 6 ≤ max (r.length + 6) (listNeed rs) := Nat.le_max_left _ _
    have hmax2 : listNeed rs ≤ max (r.length + 6) (listNeed rs) := Nat.le_max_right _ _
    rw [listNeed] at hf
    obtain ⟨f1, rfl⟩ : ∃ g, f = g + 1 := ⟨f - 1, by omega⟩
    obtain ⟨tt, hhead⟩ := objRepr_tuple_head (r.map .v)
    cases rs with
    | nil =>
      show parseElems (f1 + 1) (objRepr (.tuple (r.map .v)) ++ ']' :: rest)
        = some ([.tuple (r.map .v)], rest)
      rw [hhead, List.cons_append, parseElems_succ f1 '(' _ (by decide), if_neg (by decide)]
      rw [show '(' :: (tt ++ ']' :: rest) = objRepr (.tuple (r.map .v)) ++ ']' :: rest from
        by rw [hhead]; rfl]
      rw [parseObj_tupleRepr r hr f1 (']' :: rest) (by omega)]
      simp only [skipWs_cons_not ']' rest (by decide)]
      simp
    | cons r2 rs2 =>
      show parseElems (f1 + 1)
        ((objRepr (.tuple (r.map .v)) ++
          (',' :: ' ' :: seqBody ((r2 :: rs2).map fun x => .tuple (x.map .v)))) ++
          ']' :: rest) = _
      rw [show (objRepr (.tuple (r.map .v)) ++
          (',' :: ' ' :: seqBody ((r2 :: rs2).map fun x => .tuple (x.map .v)))) ++ ']' :: rest
          = objRepr (.tuple (r.map .v)) ++
            (',' :: ' ' :: (seqBody ((r2 :: rs2).map fun x => .tuple (x.map .v)) ++
              ']' :: rest)) from by simp]
      rw [hhead, List.cons_append, parseElems_succ f1 '(' _ (by decide), if_neg (by decide)]
      rw [show '(' :: (tt ++ (',' :: ' ' ::
            (seqBody ((r2 :: rs2).map fun x => .tuple (x.map .v)) ++ ']' :: rest)))
          = objRepr (.tuple (r.map .v)) ++ (',' :: ' ' ::
            (seqBody ((r2 :: rs2).map fun x => .tuple (x.map .v)) ++ ']' :: rest)) from
        by rw [hhead]; rfl]
      rw [parseObj_tupleRepr r hr f1 _ (by omega)]
      simp only [skipWs_cons_not ',' _ (by decide)]
      obtain ⟨f2, rfl⟩ : ∃ g, f1 = g + 1 := ⟨f1 - 1, by omega⟩
      have hih := ih hrs (f2 + 1) rest (by omega)
      simp only [List.map_cons] at hih
      simp [parseElems_ws, hih]

theorem parseObj_rowSet (rs : RowSet) (hfin : rowSetFin rs = true) :
    ∀ f rest, listNeed rs + 1 ≤ f →
      parseObj f (objRepr (rowSetObj rs) ++ rest) = some (rowSetObj rs, rest) := by
  intro f rest hf
  obtain ⟨f1, rfl⟩ : ∃ g, f = g + 1 := ⟨f - 1, by omega⟩
  show parseObj (f1 + 1)
    (('[' :: seqBody (rs.map fun r => .tuple (r.map .v)) ++ [']']) ++ rest) = _
  rw [show ('[' :: seqBody (rs.map fun r => .tuple (r.map .v)) ++ [']']) ++ rest
      = '[' :: (seqBody (rs.map fun r => .tuple (r.map .v)) ++ (']' :: rest)) from by simp]
  rw [parseObj_succ f1 '[' _ (by decide), if_pos rfl]
  rw [parseElems_rows rs hfin f1 rest (by omega)]
  rfl

theorem tupTail_len (xs : List PyObj) : xs.length + 1 ≤ (tupTail xs).length := by
  induction xs with
  | nil => simp [tupTail]
  | cons y ys ih =>
    cases ys with
    | nil => simp [tupTail]
    | cons z zs =>
      show (z :: zs).length + 1 + 1 ≤ ((' ' :: objRepr y) ++ (',' :: tupTail (z :: zs))).length
      simp only [List.length_cons, List.length_append] at ih ⊢
      omega

theorem tupleRepr_len (xs : List PyObj) : xs.length + 2 ≤ (objRepr (.tuple xs)).length := by
  cases xs with
  | nil => simp [objRepr]
  | cons y ys =>
    rw [objRepr]
    have := tupTail_len ys
    simp only [List.length_cons, List.length_append]
    simp at this ⊢
    omega

theorem listNeed_le_seqBody (rs : RowSet) :
    listNeed rs ≤ (seqBody (rs.map fun r => .tuple (r.map .v))).length + 8 := by
  induction rs with
  | nil => simp [listNeed, seqBody]
  | cons r rs ih =>
    have htr := tupleRepr_len (r.map .v)
    simp only [List.length_map] at htr
    cases rs with
    | nil =>
      rw [listNeed, listNeed]
      show 1 + max (r.length + 6) 1 ≤ (objRepr (.tuple (r.map .v))).length + 8
      have : max (r.length + 6) 1 = r.length + 6 := Nat.max_eq_left (by omega)
      omega
    | cons r2 rs2 =>
      rw [listNeed]
      show 1 + max (r.length + 6) (listNeed (r2 :: rs2)) ≤
        (objRepr (.tuple (r.map .v)) ++ ',' :: ' ' ::
          seqBody ((r2 :: rs2).map fun x => .tuple (x.map .v))).length + 8
      simp only [List.length_append, List.length_cons]
      rcases Nat.le_total (r.length + 6) (listNeed (r2 :: rs2)) with hle | hle
      · rw [Nat.max_eq_right hle]
        omega
      · rw [Nat.max_eq_left hle]
        omega

theorem parseAll_serialize (rs : RowSet) (hfin : rowSetFin rs = true) :
    parseAll (serializeRowSet rs) = some (rowSetObj rs) := by
  rw [parseAll]
  have hdata : (serializeRowSet rs).data = objRepr (rowSetObj rs) := rfl
  have hlen : (serializeRowSet rs).length = (objRepr (rowSetObj rs)).length := rfl
  have hneed : listNeed rs + 1 ≤ 2 * (serializeRowSet rs).length + 32 := by
    have h1 := listNeed_le_seqBody rs
    have h2 : (objRepr (rowSetObj rs)).length
        = (seqBody (rs.map fun r => .tuple (r.map .v))).length + 2 := by
      show ('[' :: seqBody (rs.map fun r => .tuple (r.map .v)) ++ [']']).length = _
      simp
    rw [hlen, h2]
    omega
  have h0 := parseObj_rowSet rs hfin (2 * (serializeRowSet rs).length + 32) [] hneed
  rw [List.append_nil] at h0
  rw [hdata, h0]
  rfl

theorem isPrefixOf_rfl (l : List Char) : l.isPrefixOf l = true := by
  induction l with
  | nil => simp [List.isPrefixOf]
  | cons a l ih => simp [List.isPrefixOf, ih]

theorem isPrefixOf_append_left (l : List Char) : ∀ m k, l.isPrefixOf m = true →
    l.isPrefixOf (m ++ k) = true := by
  induction l with
  | nil => intro m k _; simp [List.isPrefixOf]
  | cons a l ih =>
    intro m k h
    cases m with
    | nil => exact absurd h (by simp [List.isPrefixOf])
    | cons b m =>
      simp only [List.isPrefixOf, Bool.and_eq_true] at h
      simp only [List.cons_append, List.isPrefixOf, Bool.and_eq_true]
      exact ⟨h.1, ih m k h.2⟩

theorem isPrefixOf_self_append (l k : List Char) : l.isPrefixOf (l ++ k) = true :=
  isPrefixOf_append_left l l k (isPrefixOf_rfl l)

/-!  Claim theorems. -/

/-- C2 (counterexample): the claim as stated — the round trip holds for
every RowSet whose scalars have the supported types — fails at the
RowSet `[(float inf,)]`: `inf` is a value a float column can hold (its
`repr` token is well-formed, first conjunct), `str` serializes it as
`[(inf,)]`, and `ast.literal_eval` rejects the bare name `inf`, so
parsing returns no value at all instead of the original RowSet. -/
theorem C2_counterexample :
    rowSetOK [[PyVal.float "inf"]] = true ∧
      parseAll (serializeRowSet [[PyVal.float "inf"]]) = Option.none :=
  ⟨rfl, rfl⟩

/-- C2 (amended): for every RowSet whose scalars have the supported
types and whose floats are finite (their `repr` tokens are numeric
literals, not `inf`/`-inf`/`nan`), parsing the serialized literal form
reproduces the RowSet exactly: `parse(serialize(R)) = R`. -/
theorem C2_roundtrip_finite (rs : RowSet) (hfin : rowSetFin rs = true) :
    parseAll (serializeRowSet rs) = some (rowSetObj rs) :=
  parseAll_serialize rs hfin

/-- C2 witness: the round trip evaluated on a concrete RowSet covering
ints (both signs), strings, a float, a boolean and a null. -/
theorem C2_witness :
    rowSetFin [[PyVal.int 1, PyVal.str "Alice"],
      [PyVal.int (-2), PyVal.float "3.5", PyVal.bool true, PyVal.none]] = true ∧
    parseAll (serializeRowSet [[PyVal.int 1, PyVal.str "Alice"],
      [PyVal.int (-2), PyVal.float "3.5", PyVal.bool true, PyVal.none]])
      = some (rowSetObj [[PyVal.int 1, PyVal.str "Alice"],
        [PyVal.int (-2), PyVal.float "3.5", PyVal.bool true, PyVal.none]]) :=
  ⟨rfl, C2_roundtrip_finite _ rfl⟩

/-- C3: whenever executing the statement raises a database error,
`execute_sql` catches it and returns the text `"Error: "` followed by
the error message — the returned value is a normal string starting with
that prefix, and no exception escapes. -/
theorem C3_error_string (conn : DBConn) (fs : FS) (clk : Clock) (q : String)
    (h : Option (List String)) (e : String) (he : conn.exec q = .sqlError e) :
    (execute_sql conn fs clk q h).ret = .ok ("Error: " ++ e) ∧
      "Error: ".data.isPrefixOf ("Error: " ++ e).data = true := by
  constructor
  · simp [execute_sql, he]
  · rw [String.data_append]
    exact isPrefixOf_self_append _ _

/-- C3 witness: on the input `not sql`, with a connection that (like
real SQLite) raises a syntax error for it, the returned value is the
prefixed error string. -/
theorem C3_witness :
    (execute_sql conn0 fs0 clk0 "not sql" Option.none).ret
        = .ok ("Error: " ++ "syntax error") ∧
      "Error: ".data.isPrefixOf ("Error: " ++ "syntax error").data = true :=
  C3_error_string conn0 fs0 clk0 "not sql" Option.none "syntax error" rfl

/-- C4: `execute_sql` appends the statement verbatim to a provided
history exactly once — the final history is the old history plus one
copy of the statement, in every outcome branch (rows, no-data, and
database error alike), since the append happens before execution. -/
theorem C4_history_append (conn : DBConn) (fs : FS) (clk : Clock) (q : String)
    (h : List String) :
    (execute_sql conn fs clk q (some h)).history = some (h ++ [q]) := by
  cases he : conn.exec q <;> simp [execute_sql, he]

/-- C9: `execute_sql` invokes `conn.commit()` exactly on the branch
where the statement yields no column metadata: when the cursor has a
description (a result set) — and also on a database error — the
transaction state is left uncommitted. -/
theorem C9_commit_iff (conn : DBConn) (fs : FS) (clk : Clock) (q : String)
    (h : Option (List String)) :
    (execute_sql conn fs clk q h).committed = true ↔ conn.exec q = DBOutcome.noData := by
  cases he : conn.exec q <;> simp [execute_sql, he]

/-- C5: the global autosave writes nothing — the filesystem is
returned unchanged — when the statement (stripped, case-insensitively)
does not begin with SELECT, or the serialized result does not parse, or
it parses to a falsy value (an empty list in particular) or to a
non-list. -/
theorem C5_autosave_noop (fs : FS) (clk : Clock) (q res : String)
    (h : startsSelect q = false ∨ parseAll res = Option.none ∨
      ∃ d, parseAll res = some d ∧ (pyTruthy d = false ∨ isPyList d = false)) :
    auto_save_to_global_csv fs clk q res = fs := by
  cases hsel : startsSelect q with
  | false => simp [auto_save_to_global_csv, hsel]
  | true =>
    rcases h with h1 | h2 | ⟨d, hd, hcond⟩
    · rw [hsel] at h1; cases h1
    · simp [auto_save_to_global_csv, hsel, h2]
    · rcases hcond with ht | hl
      · simp [auto_save_to_global_csv, hsel, hd, ht]
      · cases d with
        | list xs => simp [isPyList] at hl
        | v val => simp [auto_save_to_global_csv, hsel, hd]
        | tuple xs => simp [auto_save_to_global_csv, hsel, hd]

/-- C5 witness: a write statement (`UPDATE t`) leaves the filesystem
untouched even with a parseable non-empty result. -/
theorem C5_witness : auto_save_to_global_csv fs0 clk0 "UPDATE t" "[(1,)]" = fs0 :=
  C5_autosave_noop fs0 clk0 "UPDATE t" "[(1,)]" (Or.inl rfl)

/-- C6 (counterexample): the claim as stated — a blank separator
precedes the banner iff the artifact already has existing content, and
a first write to a not-yet-populated artifact has no separator — fails
when the global file exists but is empty: the code tests
`os.path.exists`, not content, so the very first block written to an
existing empty artifact is still preceded by the blank separator
record. -/
theorem C6_counterexample :
    fsEmptyGlobal.files "/cwd/query_results.csv" = some "" ∧
      (auto_save_to_global_csv fsEmptyGlobal clk0 "SELECT 1" "[(1,)]").files
          "/cwd/query_results.csv"
        = some ("\r\n=== AUTO-SAVED Query at: 2025-01-01 00:00:00 ===\r\nSQL: SELECT 1...\r\n1\r\n") :=
  ⟨rfl, rfl⟩

/-- C6 (amended): whenever the autosave writes, the appended block is
preceded by the blank separator record iff the global artifact file
already exists (regardless of its content); a write to a nonexistent
artifact is not preceded by a separator. -/
theorem C6_separator_iff_exists (fs : FS) (clk : Clock) (q res : String) (xs : List PyObj)
    (hsel : startsSelect q = true) (hp : parseAll res = some (PyObj.list xs))
    (ht : pyTruthy (PyObj.list xs) = true)
    (hio : fs.ioErr (abspath fs.cwd globalCsvName) = Option.none) :
    (auto_save_to_global_csv fs clk q res).files (abspath fs.cwd globalCsvName)
      = some ((fs.files (abspath fs.cwd globalCsvName)).getD "" ++
          (if (fs.files (abspath fs.cwd globalCsvName)).isSome then crlf else "") ++
          autoSaveBlock clk q xs) := by
  simp [auto_save_to_global_csv, hsel, hp, ht, hio]

/-- C6 witness: a first write to a filesystem with no global artifact
appends the bare banner block, with no separator. -/
theorem C6_witness :
    (auto_save_to_global_csv fs0 clk0 "SELECT 1" "[(1,)]").files
        (abspath fs0.cwd globalCsvName)
      = some ((fs0.files (abspath fs0.cwd globalCsvName)).getD "" ++
          (if (fs0.files (abspath fs0.cwd globalCsvName)).isSome then crlf else "") ++
          autoSaveBlock clk0 "SELECT 1" [PyObj.tuple [PyObj.v (PyVal.int 1)]]) :=
  C6_separator_iff_exists fs0 clk0 "SELECT 1" "[(1,)]"
    [PyObj.tuple [PyObj.v (PyVal.int 1)]] rfl rfl rfl rfl

/-- C7 (counterexample): the claim as stated — every non-empty filename
yields a written name ending with the `.csv` suffix exactly once —
fails at the filename `a.csv.csv`: the lowercased name already ends
with `.csv`, so it is kept verbatim and the file is written under the
doubled suffix. -/
theorem C7_counterexample :
    (save_data_to_csv fs0 clk0 (PyObj.list [PyObj.v (PyVal.int 1)]) "a.csv.csv" "").fs.files
        "/cwd/files/a.csv.csv" = some "1\r\n" ∧
      csvSuffixOnce "a.csv.csv" = false :=
  ⟨rfl, rfl⟩

theorem csv_suffix_append (l : List Char) :
    ".csv".data.isSuffixOf (pyLower (l ++ ".csv".data)) = true := by
  rw [pyLower, List.map_append,
    show ".csv".data.map Char.toLower = ".csv".data from by decide]
  simp [List.isSuffixOf_iff_suffix]

/-- C7 (amended): for a valid save, the file is written at the `files`
directory path joined with the normalized name; an empty filename
synthesizes `query_<stamp>.csv`, a name already ending in `.csv`
(case-insensitively) is kept verbatim, any other name gets `.csv`
appended once (case-preserving), and the resulting name always ends
with `.csv` case-insensitively — but an input that already carries a
doubled suffix keeps it. -/
theorem C7_filename_normalization (fs : FS) (clk : Clock) (fn desc : String)
    (xs : List PyObj) (hne : pyTruthy (PyObj.list xs) = true)
    (hio1 : fs.ioErr (pathJoin fs.cwd "files") = Option.none)
    (hio2 : fs.ioErr (abspath fs.cwd (pathJoin (pathJoin fs.cwd "files")
      (csvNameNorm clk fn))) = Option.none) :
    (save_data_to_csv fs clk (PyObj.list xs) fn desc).fs.files
        (abspath fs.cwd (pathJoin (pathJoin fs.cwd "files") (csvNameNorm clk fn)))
      = some (saveHeader clk desc ++ renderNormRows (xs.map normalizeRow)) ∧
    (fn = "" → csvNameNorm clk fn = "query_" ++ clk.fileStamp ++ ".csv") ∧
    (fn ≠ "" → csvNameNorm clk fn =
      (if ".csv".data.isSuffixOf (pyLower fn.data) then fn else fn ++ ".csv")) ∧
    ".csv".data.isSuffixOf (pyLower (csvNameNorm clk fn).data) = true := by
  refine ⟨?_, ?_, ?_, ?_⟩
  · simp [save_data_to_csv, save_body, saveEffData, hne, makedirs, hio1, openWriteAll, hio2,
      Except.bind]
  · intro h
    simp [csvNameNorm, h]
  · intro h
    simp [csvNameNorm, h]
  · by_cases h0 : fn = ""
    · subst h0
      rw [show csvNameNorm clk "" = "query_" ++ clk.fileStamp ++ ".csv" from by
        simp [csvNameNorm]]
      rw [show ("query_" ++ clk.fileStamp ++ ".csv").data
          = ("query_" ++ clk.fileStamp).data ++ ".csv".data from by
        rw [String.data_append]]
      exact csv_suffix_append _
    · by_cases h1 : ".csv".data.isSuffixOf (pyLower fn.data)
      · rw [show csvNameNorm clk fn = fn from by simp [csvNameNorm, h0, h1]]
        exact h1
      · rw [show csvNameNorm clk fn = fn ++ ".csv" from by simp [csvNameNorm, h0, h1]]
        rw [show (fn ++ ".csv").data = fn.data ++ ".csv".data from by rw [String.data_append]]
        exact csv_suffix_append _

/-- C7 witness: an empty filename synthesizes the timestamped
`query_<YYYYMMDD_HHMMSS>.csv` name (the stamp has the digit shape) and
the file is written there. -/
theorem C7_witness :
    ((save_data_to_csv fs0 clk0 (PyObj.list [PyObj.v (PyVal.int 1)]) "" "").fs.files
        (abspath fs0.cwd (pathJoin (pathJoin fs0.cwd "files") (csvNameNorm clk0 "")))
      = some (saveHeader clk0 "" ++
          renderNormRows ([PyObj.v (PyVal.int 1)].map normalizeRow))) ∧
    csvNameNorm clk0 "" = "query_" ++ clk0.fileStamp ++ ".csv" ∧
    fileStampWF clk0.fileStamp = true :=
  ⟨(C7_filename_normalization fs0 clk0 "" "" [PyObj.v (PyVal.int 1)] rfl rfl rfl).1,
   (C7_filename_normalization fs0 clk0 "" "" [PyObj.v (PyVal.int 1)] rfl rfl rfl).2.1 rfl,
   rfl⟩

/-- C8: every validation failure of `save_data_to_csv` — an
unparseable data string, falsy data (the empty list in particular), or
data that is not a list — returns an `Error`-prefixed message and
leaves the filesystem completely unchanged. -/
theorem C8_save_validation (fs : FS) (clk : Clock) (data : PyObj) (fn desc : String)
    (h : saveEffData data = Option.none ∨
      ∃ d, saveEffData data = some d ∧ (pyTruthy d = false ∨ isPyList d = false)) :
    ∃ msg, (save_data_to_csv fs clk data fn desc).ret = .ok msg ∧
      "Error".data.isPrefixOf msg.data = true ∧
      (save_data_to_csv fs clk data fn desc).fs = fs := by
  rcases h with h1 | ⟨d, hd, hcond⟩
  · refine ⟨parseErrMsg, ?_, by decide, ?_⟩ <;> simp [save_data_to_csv, save_body, h1]
  · rcases hcond with ht | hl
    · refine ⟨emptyErrMsg, ?_, by decide, ?_⟩ <;>
        simp [save_data_to_csv, save_body, hd, ht]
    · cases d with
      | list xs => simp [isPyList] at hl
      | v val =>
        cases ht : pyTruthy (PyObj.v val) with
        | false =>
          refine ⟨emptyErrMsg, ?_, by decide, ?_⟩ <;>
            simp [save_data_to_csv, save_body, hd, ht]
        | true =>
          refine ⟨notListMsg (PyObj.v val), ?_, ?_, ?_⟩
          · simp [save_data_to_csv, save_body, hd, ht]
          · rw [notListMsg, show ("Error: Data must be a list, received " ++
                pyTypeName (PyObj.v val) ++ ".").data
                = "Error: Data must be a list, received ".data ++
                  ((pyTypeName (PyObj.v val)).data ++ ".".data) from by
              rw [String.data_append, String.data_append, List.append_assoc]]
            exact isPrefixOf_append_left _ _ _ (by decide)
          · simp [save_data_to_csv, save_body, hd, ht]
      | tuple xs =>
        cases ht : pyTruthy (PyObj.tuple xs) with
        | false =>
          refine ⟨emptyErrMsg, ?_, by decide, ?_⟩ <;>
            simp [save_data_to_csv, save_body, hd, ht]
        | true =>
          refine ⟨notListMsg (PyObj.tuple xs), ?_, ?_, ?_⟩
          · simp [save_data_to_csv, save_body, hd, ht]
          · rw [notListMsg, show ("Error: Data must be a list, received " ++
                pyTypeName (PyObj.tuple xs) ++ ".").data
                = "Error: Data must be a list, received ".data ++
                  ((pyTypeName (PyObj.tuple xs)).data ++ ".".data) from by
              rw [String.data_append, String.data_append, List.append_assoc]]
            exact isPrefixOf_append_left _ _ _ (by decide)
          · simp [save_data_to_csv, save_body, hd, ht]

/-- C8 witness: `save_data_to_csv([], "x")` — the empty list — returns
an error string and writes nothing. -/
theorem C8_witness :
    ∃ msg, (save_data_to_csv fs0 clk0 (PyObj.list []) "x" "").ret = .ok msg ∧
      "Error".data.isPrefixOf msg.data = true ∧
      (save_data_to_csv fs0 clk0 (PyObj.list []) "x" "").fs = fs0 :=
  C8_save_validation fs0 clk0 (PyObj.list []) "x" ""
    (Or.inr ⟨PyObj.list [], rfl, Or.inl rfl⟩)

/-- C10: a string element of the data list is treated as a scalar by
the row normalization of `save_data_to_csv` (tools.py line 124): it
becomes a single one-element row holding the entire string, never a row
of its characters, and that row renders as one csv record with one
field. -/
theorem C10_string_row (xs : List PyObj) (i : Nat) (s : String)
    (hx : xs[i]? = some (PyObj.v (PyVal.str s))) :
    (xs.map normalizeRow)[i]? = some [PyObj.v (PyVal.str s)] ∧
      renderNormRows [[PyObj.v (PyVal.str s)]] = csvQuote s ++ crlf := by
  constructor
  · rw [List.getElem?_map, hx]
    rfl
  · show csvRow [csvField (PyObj.v (PyVal.str s))] ++ "" = csvQuote s ++ crlf
    rw [show csvField (PyObj.v (PyVal.str s)) = csvQuote s from rfl,
      show csvRow [csvQuote s] = csvQuote s ++ crlf from rfl]
    simp

/-- C10 witness: the data list `["ab"]` yields the single row
`["ab"]`, rendered as one record holding the whole string. -/
theorem C10_witness :
    ([PyObj.v (PyVal.str "ab")].map normalizeRow)[0]?
        = some [PyObj.v (PyVal.str "ab")] ∧
      renderNormRows [[PyObj.v (PyVal.str "ab")]] = csvQuote "ab" ++ crlf :=
  C10_string_row [PyObj.v (PyVal.str "ab")] 0 "ab" rfl

theorem exceptMap_names_ok (rs : RowSet) (h : ∀ r ∈ rs, 1 ≤ r.length) :
    ∃ vs, exceptMap (fun r => rowItem r 0) rs = Except.ok vs := by
  induction rs with
  | nil => exact ⟨[], rfl⟩
  | cons r rs ih =>
    obtain ⟨vs, hvs⟩ := ih fun x hx => h x (List.mem_cons_of_mem r hx)
    have h0 : 0 < r.length := h r (List.mem_cons_self r rs)
    obtain ⟨v, hv⟩ : ∃ v, r[0]? = some v := ⟨_, List.getElem?_eq_getElem h0⟩
    have hri : rowItem r 0 = Except.ok v := by simp [rowItem, hv]
    refine ⟨v :: vs, ?_⟩
    simp only [exceptMap, hri, hvs]

theorem exceptMap_pairs_ok (cols : RowSet) (h : ∀ r ∈ cols, 3 ≤ r.length) :
    ∃ ps, exceptMap colPair cols = Except.ok ps := by
  induction cols with
  | nil => exact ⟨[], rfl⟩
  | cons r rs ih =>
    obtain ⟨ps, hps⟩ := ih fun x hx => h x (List.mem_cons_of_mem r hx)
    have h3 : 3 ≤ r.length := h r (List.mem_cons_self r rs)
    obtain ⟨v1, hv1⟩ : ∃ v, r[1]? = some v := ⟨_, List.getElem?_eq_getElem (by omega)⟩
    obtain ⟨v2, hv2⟩ : ∃ v, r[2]? = some v := ⟨_, List.getElem?_eq_getElem (by omega)⟩
    have hp : colPair r = Except.ok (PyObj.tuple [.v v1, .v v2]) := by
      simp [colPair, rowItem, hv1, hv2]
    refine ⟨PyObj.tuple [.v v1, .v v2] :: ps, ?_⟩
    simp only [exceptMap, hp, hps]

theorem listAllTables_ok (conn : DBConn) (hok : catalogOK conn) :
    retOk (listAllTables conn) = true := by
  rw [catalogOK] at hok
  cases hc : conn.exec catalogQuery with
  | sqlError e => rw [hc] at hok; exact absurd hok (by simp)
  | noData => simp [listAllTables, hc, retOk]
  | rows rs =>
    rw [hc] at hok
    obtain ⟨vs, hvs⟩ := exceptMap_names_ok rs hok
    simp [listAllTables, hc, hvs, retOk]

/-- C1 (counterexample): the claim as stated — none of the three tool
operations ever lets an exception escape — fails for `get_schema`,
which has no exception handler: with a connection that (like real
SQLite) raises a syntax error on the statement
`PRAGMA table_info());` produced by interpolating the table name `)`,
the database error escapes to the caller. -/
theorem C1_counterexample : retOk (get_schema conn0 (some ")")) = false := rfl

/-- C1 (amended): `execute_sql` and `save_data_to_csv` always return a
text result and never let an exception escape, for every connection,
filesystem and input; `get_schema` returns a text result whenever the
catalog or PRAGMA statement it issues executes without a database
error and yields well-shaped catalog rows, but it has no handler of
its own. -/
theorem C1_total_tools :
    (∀ conn fs clk q h, retOk (execute_sql conn fs clk q h).ret = true) ∧
    (∀ fs clk data fn desc, retOk (save_data_to_csv fs clk data fn desc).ret = true) ∧
    (∀ conn tn, schemaQueryOK conn tn → retOk (get_schema conn tn) = true) := by
  refine ⟨?_, ?_, ?_⟩
  · intro conn fs clk q h
    cases he : conn.exec q <;> simp [execute_sql, he, retOk]
  · intro fs clk data fn desc
    rcases hsb : save_body fs clk data fn desc with ⟨e, fs1⟩ | ⟨msg, fs1⟩
    · cases e <;> simp [save_data_to_csv, hsb, retOk]
    · simp [save_data_to_csv, hsb, retOk]
  · intro conn tn hok
    cases tn with
    | none => exact listAllTables_ok conn hok
    | some name =>
      by_cases hn : name = ""
      · rw [get_schema, if_pos hn]
        rw [schemaQueryOK, if_pos hn] at hok
        exact listAllTables_ok conn hok
      · rw [get_schema, if_neg hn]
        rw [schemaQueryOK, if_neg hn] at hok
        cases hc : conn.exec ("PRAGMA table_info(" ++ name ++ ");") with
        | sqlError e => rw [hc] at hok; exact absurd hok (by simp)
        | noData => simp [hc, retOk]
        | rows cols =>
          rw [hc] at hok
          obtain ⟨ps, hps⟩ := exceptMap_pairs_ok cols hok
          simp [hc, hps, retOk]

/-- C1 witness: a well-formed call — `get_schema` on a table name whose
PRAGMA executes cleanly — returns text, via the amended theorem. -/
theorem C1_witness : retOk (get_schema conn0 (some "users")) = true :=
  C1_total_tools.2.2 conn0 (some "users") (by
    rw [schemaQueryOK, if_neg (by decide)]
    rw [show conn0.exec ("PRAGMA table_info(" ++ "users" ++ ");") = .noData from rfl]
    trivial)

end SQLTools
